import Mathlib

/-!
# Verification of the Kaboot polling server protocol

Shallow embedding of the WebSocket server (`server.js`): the in-memory
session store, per-connection handler state, and the message handlers for
`identify`, `host:create_game`, `host:update_poll`, `host:start_poll`,
`host:end_poll`, `player:join`, `player:vote`, and the socket `close`
handler.  JavaScript `Map`s are modelled as insertion-ordered lists,
JavaScript numbers (the `choiceIndex` payload field) as rationals
(every concrete value considered here is exactly representable as a
binary double, and the comparisons the code performs on them are exact),
and `randomUUID` freshness by a global counter.
-/

namespace Kaboot

abbrev ConnId := Nat
abbrev Code := Nat
abbrev PlayerId := Nat

/-- The connection role recorded by the `identify` handler. -/
inductive Role
  | host
  | player
deriving DecidableEq, Repr

/-- A roster entry, as built by the `player:join` handler:
`{ id, name, socket, hasVoted, choiceIndex }`.  `choiceIndex` is
`undefined` (`none`) until the player votes; the code stores whatever
JavaScript number passed the vote guard, so the model keeps a rational. -/
structure Player where
  id : PlayerId
  name : String
  conn : ConnId
  hasVoted : Bool
  choiceIndex : Option ℚ
deriving DecidableEq, Repr

/-- Session lifecycle state: `'lobby' | 'active' | 'ended'`. -/
inductive GState
  | lobby
  | active
  | ended
deriving DecidableEq, Repr

/-- A game session as stored in the `games` map.  `hostId` (the host's
client UUID) is stored by the code but never read, so it is omitted;
`hostSocket` is kept as `hostConn`. -/
structure Game where
  code : Code
  hostConn : ConnId
  question : String
  options : List String
  players : List Player
  state : GState
deriving DecidableEq, Repr

/-- Per-connection handler state: the closure variables `role`,
`currentGameCode`, `playerId` of the `wss.on('connection')` callback,
plus whether the socket is still writable (`readyState === OPEN`). -/
structure Conn where
  id : ConnId
  sockOpen : Bool
  role : Option Role
  currentGameCode : Option Code
  playerId : Option PlayerId
deriving DecidableEq, Repr

/-- The whole server state: the `games` map (insertion ordered), every
connection's handler state, and a freshness counter standing in for
`randomUUID` (all identifiers it produces are distinct). -/
structure ServerState where
  games : List Game
  conns : List Conn
  nextId : Nat
deriving DecidableEq, Repr

/-- Inbound messages after JSON parsing, one variant per recognized
`type` tag.  `join`'s `code` is `none` when the field is missing or the
empty string (both falsy); `vote`'s `choiceIndex` is `none` when the
payload field is not a number.  A `createGame`/`updatePoll` payload
whose `options` is not an array takes the same rejection path as a list
of fewer than two options, so `options` is modelled as a list. -/
inductive InMsg
  | identify (role : String)
  | createGame (question : String) (options : List String)
  | updatePoll (question : String) (options : List String)
  | startPoll
  | endPoll
  | join (code : Option Code) (name : String)
  | vote (choiceIndex : Option ℚ)
  | unknown
deriving DecidableEq, Repr

/-- Outbound messages, one variant per `type` the server sends. -/
inductive OutMsg
  | error (message : String)
  | identified (role : Role)
  | gameCreated (code : Code) (question : String) (options : List String)
  | pollUpdated (question : String) (options : List String)
  | playersUpdated (players : List (PlayerId × String × Bool))
  | pollStarted
  | pollProgress (results : List Nat)
  | hostPollResults (results : List Nat)
  | playerJoined (code : Code) (question : Option String)
      (options : Option (List String))
  | pollStart (question : String) (options : List String)
  | pollResults (question : String) (options : List String) (results : List Nat)
  | playerVoted (choiceIndex : ℚ)
  | pollReset (message : String)
  | gameEnded (message : String)
deriving DecidableEq, Repr

/-- An emitted frame: destination connection and payload. -/
abbrev Sent := ConnId × OutMsg

/-- Strip leading and trailing whitespace from a character list. -/
def trimChars (l : List Char) : List Char :=
  ((l.dropWhile Char.isWhitespace).reverse.dropWhile Char.isWhitespace).reverse

/-- JavaScript `String.prototype.trim()`: remove leading and trailing
whitespace.  (Implemented over the character list so that it reduces
inside the kernel; agrees with `String.trim` on the strings involved.) -/
def jsTrim (s : String) : String :=
  String.mk (trimChars s.data)

/-- JavaScript `.slice(0, n)`: the first `n` characters. -/
def jsSlice (n : Nat) (s : String) : String :=
  String.mk (s.data.take n)

def lookupConn (s : ServerState) (c : ConnId) : Option Conn :=
  s.conns.find? (fun cn => cn.id = c)

def lookupGame (s : ServerState) (code : Code) : Option Game :=
  s.games.find? (fun g => g.code = code)

/-- Whether a connection is currently writable (`readyState === OPEN`). -/
def connIsOpen (s : ServerState) (c : ConnId) : Bool :=
  match lookupConn s c with
  | some cn => cn.sockOpen
  | none => false

/-- `send(socket, payload)`: delivers only when the socket is open,
silently skips otherwise. -/
def send (s : ServerState) (c : ConnId) (m : OutMsg) : List Sent :=
  if connIsOpen s c then [(c, m)] else []

/-- `broadcastToPlayers(game, payload)`: best-effort send to every roster
entry's socket, in roster (insertion) order. -/
def broadcastToPlayers (s : ServerState) (g : Game) (m : OutMsg) : List Sent :=
  (g.players.map (fun p => send s p.conn m)).flatten

/-- `serializePlayers(game)`: `{id, name, hasVoted}` per roster entry. -/
def serializePlayers (g : Game) : List (PlayerId × String × Bool) :=
  g.players.map (fun p => (p.id, p.name, p.hasVoted))

/-- The single array-cell update `counts[choiceIndex] += 1` performed by
`countVotes`.  For an integer index inside the array it increments that
bucket; a fractional or negative number creates a non-index property
that never appears in the serialized results array, so the model leaves
the list unchanged there.  (An integer at or beyond `counts.length`
would extend the JavaScript array; the range invariant proved below
shows no reachable roster stores such an index.) -/
def bump (counts : List Nat) (q : ℚ) : List Nat :=
  if q.den = 1 ∧ 0 ≤ q.num ∧ q.num.toNat < counts.length then
    counts.set q.num.toNat (counts.getD q.num.toNat 0 + 1)
  else counts

/-- `countVotes(game)`: one zero-initialized bucket per option, then one
pass over the roster adding each recorded numeric `choiceIndex`. -/
def countVotes (g : Game) : List Nat :=
  g.players.foldl
    (fun counts p =>
      match p.choiceIndex with
      | some q => bump counts q
      | none => counts)
    (g.options.map (fun _ => 0))

/-- `generateGameCode()`: deterministic stand-in for the random
draw-until-free loop; all the code guarantees (and all the proofs use)
is that the produced code differs from every live game's code. -/
def generateGameCode (s : ServerState) : Code :=
  s.games.foldl (fun m g => max m g.code) 100000 + 1

/-- Replace connection `c`'s handler state by `f` of it. -/
def updateConn (s : ServerState) (c : ConnId) (f : Conn → Conn) : ServerState :=
  { s with conns := s.conns.map (fun cn => if cn.id = c then f cn else cn) }

/-- Mutate the game stored under `code` in place. -/
def updateGame (s : ServerState) (code : Code) (f : Game → Game) : ServerState :=
  { s with games := s.games.map (fun g => if g.code = code then f g else g) }

/-- `options.map(o => o.trim()).filter(Boolean)`. -/
def trimOptions (options : List String) : List String :=
  (options.map jsTrim).filter (fun o => o ≠ "")

/-- The vote-state reset loop shared by `host:update_poll` and
`host:start_poll`. -/
def resetPlayer (p : Player) : Player :=
  { p with hasVoted := false, choiceIndex := none }

def roleOf (s : ServerState) (c : ConnId) : Option Role :=
  match lookupConn s c with
  | some cn => cn.role
  | none => none

/-- The `case 'identify'` branch. -/
def handleIdentify (s : ServerState) (c : ConnId) (r : String) :
    ServerState × List Sent :=
  if r = "host" then
    (updateConn s c (fun cn => { cn with role := some Role.host }),
      send s c (OutMsg.identified Role.host))
  else if r = "player" then
    (updateConn s c (fun cn => { cn with role := some Role.player }),
      send s c (OutMsg.identified Role.player))
  else
    (s, send s c (OutMsg.error "Unknown role specified."))

/-- The `case 'host:create_game'` branch. -/
def handleCreateGame (s : ServerState) (c : ConnId) (question : String)
    (options : List String) : ServerState × List Sent :=
  if roleOf s c ≠ some Role.host then
    (s, send s c (OutMsg.error "Only hosts can create games."))
  else if question = "" ∨ options.length < 2 then
    (s, send s c (OutMsg.error
      "A question and at least two options are required to start a poll."))
  else
    let trimmedOptions := trimOptions options
    if trimmedOptions.length < 2 then
      (s, send s c (OutMsg.error "Provide at least two non-empty answer options."))
    else
      let code := generateGameCode s
      let game : Game :=
        { code := code
          hostConn := c
          question := jsTrim question
          options := trimmedOptions
          players := []
          state := GState.lobby }
      let s' := updateConn { s with games := s.games ++ [game] } c
        (fun cn => { cn with currentGameCode := some code })
      (s', send s' c (OutMsg.gameCreated code game.question game.options))

/-- The `case 'host:update_poll'` branch. -/
def handleUpdatePoll (s : ServerState) (c : ConnId) (question : String)
    (options : List String) : ServerState × List Sent :=
  if roleOf s c ≠ some Role.host then
    (s, send s c (OutMsg.error "Only hosts can update polls."))
  else
    match (lookupConn s c).bind (fun cn => cn.currentGameCode) with
    | none =>
      (s, send s c (OutMsg.error "Create a game before updating the poll."))
    | some code =>
      match lookupGame s code with
      | none =>
        (s, send s c (OutMsg.error "Create a game before updating the poll."))
      | some _ =>
        if question = "" ∨ options.length < 2 then
          (s, send s c (OutMsg.error
            "A question and at least two options are required."))
        else
          let trimmedOptions := trimOptions options
          if trimmedOptions.length < 2 then
            (s, send s c (OutMsg.error
              "Provide at least two non-empty answer options."))
          else
            let s' := updateGame s code (fun g =>
              { g with
                  question := jsTrim question
                  options := trimmedOptions
                  state := GState.lobby
                  players := g.players.map resetPlayer })
            match lookupGame s' code with
            | none => (s', [])
            | some g' =>
              (s',
                send s' c (OutMsg.pollUpdated g'.question g'.options) ++
                send s' c (OutMsg.playersUpdated (serializePlayers g')) ++
                broadcastToPlayers s' g' (OutMsg.pollReset
                  "The host is preparing a new poll. Please wait for the next question."))

/-- The `case 'host:start_poll'` branch. -/
def handleStartPoll (s : ServerState) (c : ConnId) : ServerState × List Sent :=
  if roleOf s c ≠ some Role.host then
    (s, send s c (OutMsg.error "Only hosts can start polls."))
  else
    match (lookupConn s c).bind (fun cn => cn.currentGameCode) with
    | none =>
      (s, send s c (OutMsg.error "Create a game before starting the poll."))
    | some code =>
      match lookupGame s code with
      | none =>
        (s, send s c (OutMsg.error "Create a game before starting the poll."))
      | some g =>
        if g.state = GState.active then
          (s, send s c (OutMsg.error "A poll is already in progress."))
        else
          let s' := updateGame s code (fun g =>
            { g with state := GState.active, players := g.players.map resetPlayer })
          match lookupGame s' code with
          | none => (s', [])
          | some g' =>
            (s',
              send s' c (OutMsg.playersUpdated (serializePlayers g')) ++
              broadcastToPlayers s' g' (OutMsg.pollStart g'.question g'.options) ++
              send s' c OutMsg.pollStarted)

/-- The `case 'host:end_poll'` branch. -/
def handleEndPoll (s : ServerState) (c : ConnId) : ServerState × List Sent :=
  if roleOf s c ≠ some Role.host then
    (s, send s c (OutMsg.error "Only hosts can end polls."))
  else
    match (lookupConn s c).bind (fun cn => cn.currentGameCode) with
    | none =>
      (s, send s c (OutMsg.error "Create a game before ending the poll."))
    | some code =>
      match lookupGame s code with
      | none =>
        (s, send s c (OutMsg.error "Create a game before ending the poll."))
      | some g =>
        if g.state ≠ GState.active then
          (s, send s c (OutMsg.error "The poll is not currently running."))
        else
          let s' := updateGame s code (fun g => { g with state := GState.ended })
          match lookupGame s' code with
          | none => (s', [])
          | some g' =>
            let results := countVotes g'
            (s',
              send s' c (OutMsg.hostPollResults results) ++
              broadcastToPlayers s' g'
                (OutMsg.pollResults g'.question g'.options results))

/-- The `case 'player:join'` branch.  `playerId` and `currentGameCode`
are assigned only after all checks pass; the fresh `randomUUID()` is
taken from the counter. -/
def handleJoin (s : ServerState) (c : ConnId) (code : Option Code)
    (name : String) : ServerState × List Sent :=
  if roleOf s c ≠ some Role.player then
    (s, send s c (OutMsg.error "Only players can join games."))
  else
    match code with
    | none =>
      (s, send s c (OutMsg.error "A game code and display name are required."))
    | some code =>
      if name = "" then
        (s, send s c (OutMsg.error "A game code and display name are required."))
      else
        match lookupGame s code with
        | none =>
          (s, send s c (OutMsg.error "No game found with that code."))
        | some _ =>
          let pid := s.nextId
          let player : Player :=
            { id := pid
              name := jsSlice 40 (jsTrim name)
              conn := c
              hasVoted := false
              choiceIndex := none }
          let s' := updateConn
            (updateGame { s with nextId := s.nextId + 1 } code
              (fun g => { g with players := g.players ++ [player] }))
            c (fun cn => { cn with currentGameCode := some code, playerId := some pid })
          match lookupGame s' code with
          | none => (s', [])
          | some g' =>
            (s',
              send s' c (OutMsg.playerJoined code
                (if g'.state = GState.active then some g'.question else none)
                (if g'.state = GState.active then some g'.options else none)) ++
              send s' g'.hostConn (OutMsg.playersUpdated (serializePlayers g')) ++
              (if g'.state = GState.active then
                send s' c (OutMsg.pollStart g'.question g'.options)
              else []))

/-- The `case 'player:vote'` branch.  The guard is exactly
`typeof choiceIndex !== 'number' || choiceIndex < 0 ||
choiceIndex >= game.options.length`: number-hood and range, with no
integrality check. -/
def handleVote (s : ServerState) (c : ConnId) (choiceIndex : Option ℚ) :
    ServerState × List Sent :=
  if roleOf s c ≠ some Role.player then
    (s, send s c (OutMsg.error "Only players can vote."))
  else
    match (lookupConn s c).bind (fun cn => cn.currentGameCode) with
    | none =>
      (s, send s c (OutMsg.error "Join a game before voting."))
    | some code =>
      match lookupGame s code with
      | none =>
        (s, send s c (OutMsg.error "Join a game before voting."))
      | some g =>
        if g.state ≠ GState.active then
          (s, send s c (OutMsg.error "Voting is not open at the moment."))
        else
          match ((lookupConn s c).bind (fun cn => cn.playerId)).bind
              (fun pid => g.players.find? (fun p => p.id = pid)) with
          | none =>
            (s, send s c (OutMsg.error "You are not part of this game."))
          | some player =>
            if player.hasVoted then
              (s, send s c (OutMsg.error "You have already voted in this poll."))
            else
              match choiceIndex with
              | none =>
                (s, send s c (OutMsg.error "Please select a valid option."))
              | some q =>
                if q < 0 ∨ (g.options.length : ℚ) ≤ q then
                  (s, send s c (OutMsg.error "Please select a valid option."))
                else
                  let s' := updateGame s code (fun g =>
                    { g with players := g.players.map (fun p =>
                        if p.id = player.id then
                          { p with hasVoted := true, choiceIndex := some q }
                        else p) })
                  match lookupGame s' code with
                  | none => (s', [])
                  | some g' =>
                    (s',
                      send s' c (OutMsg.playerVoted q) ++
                      send s' g'.hostConn
                        (OutMsg.playersUpdated (serializePlayers g')) ++
                      send s' g'.hostConn (OutMsg.pollProgress (countVotes g')))

/-- The `socket.on('message')` dispatch (`switch (message.type)`). -/
def handleMessage (s : ServerState) (c : ConnId) (m : InMsg) :
    ServerState × List Sent :=
  match m with
  | InMsg.identify r => handleIdentify s c r
  | InMsg.createGame q opts => handleCreateGame s c q opts
  | InMsg.updatePoll q opts => handleUpdatePoll s c q opts
  | InMsg.startPoll => handleStartPoll s c
  | InMsg.endPoll => handleEndPoll s c
  | InMsg.join code name => handleJoin s c code name
  | InMsg.vote ci => handleVote s c ci
  | InMsg.unknown => (s, send s c (OutMsg.error "Unknown message type received."))

/-- `destroyGame(code)`: notify every still-open roster socket once, then
delete the session from the store. -/
def destroyGame (s : ServerState) (code : Code) : ServerState × List Sent :=
  match lookupGame s code with
  | none => (s, [])
  | some g =>
    ({ s with games := s.games.filter (fun g' => g'.code ≠ code) },
      broadcastToPlayers s g (OutMsg.gameEnded
        "The host has disconnected. The poll has ended."))

/-- The `socket.on('close')` handler.  The closing socket is no longer
writable when the handler runs, so its open flag drops first. -/
def handleClose (s : ServerState) (c : ConnId) : ServerState × List Sent :=
  let s0 := updateConn s c (fun cn => { cn with sockOpen := false })
  match lookupConn s0 c with
  | none => (s0, [])
  | some cn =>
    match cn.role, cn.currentGameCode with
    | some Role.host, some code => destroyGame s0 code
    | some Role.player, some code =>
      match lookupGame s0 code, cn.playerId with
      | some _, some pid =>
        let s' := updateGame s0 code (fun g =>
          { g with players := g.players.filter (fun p => p.id ≠ pid) })
        match lookupGame s' code with
        | none => (s', [])
        | some g' =>
          (s', send s' g'.hostConn (OutMsg.playersUpdated (serializePlayers g')))
      | _, _ => (s0, [])
    | _, _ => (s0, [])

/-- `wss.on('connection')`: fresh connection with no role, no session. -/
def handleConnect (s : ServerState) : ServerState :=
  { s with
      conns := s.conns ++
        [{ id := s.nextId
           sockOpen := true
           role := none
           currentGameCode := none
           playerId := none }]
      nextId := s.nextId + 1 }

/-- External events driving the server: a new connection, a parsed
message frame from an open connection, or a socket close. -/
inductive Event
  | connect
  | msg (c : ConnId) (m : InMsg)
  | close (c : ConnId)
deriving DecidableEq, Repr

/-- One event-loop step.  Message and close events fire only for
connections that are currently open. -/
def step (s : ServerState) (e : Event) : ServerState × List Sent :=
  match e with
  | Event.connect => (handleConnect s, [])
  | Event.msg c m => if connIsOpen s c then handleMessage s c m else (s, [])
  | Event.close c => if connIsOpen s c then handleClose s c else (s, [])

def init : ServerState := { games := [], conns := [], nextId := 0 }

/-- Execute a list of events from a state (final state only). -/
def exec (s : ServerState) (es : List Event) : ServerState :=
  es.foldl (fun s e => (step s e).1) s

/-- Execute a list of events from `init`, accumulating the trace of
emitted frames. -/
def run (es : List Event) : ServerState × List Sent :=
  es.foldl (fun acc e =>
    let r := step acc.1 e
    (r.1, acc.2 ++ r.2)) (init, [])

/-- States reachable from the empty server through event-loop steps. -/
inductive Reachable : ServerState → Prop
  | init : Reachable init
  | step (s : ServerState) (e : Event) : Reachable s → Reachable (step s e).1

/-- Per-session invariant: at least two options, every option non-empty
after the create/update filter, vote flags consistent with the recorded
choice, and every recorded choice numerically inside `[0, len(options))`. -/
def GameInv (g : Game) : Prop :=
  2 ≤ g.options.length ∧
  (∀ o ∈ g.options, o ≠ "") ∧
  (∀ p ∈ g.players, (p.hasVoted = true ↔ p.choiceIndex.isSome = true)) ∧
  (∀ p ∈ g.players, ∀ q : ℚ, p.choiceIndex = some q →
    0 ≤ q ∧ q < g.options.length)

def gameIds (g : Game) : List PlayerId :=
  g.players.map Player.id

def allIds (s : ServerState) : List PlayerId :=
  (s.games.map gameIds).flatten

/-- Global invariant: every live session satisfies `GameInv`, codes are
pairwise distinct, and player identifiers are globally fresh and
pairwise distinct. -/
def StateInv (s : ServerState) : Prop :=
  (∀ g ∈ s.games, GameInv g) ∧
  (s.games.map Game.code).Nodup ∧
  (∀ y ∈ allIds s, y < s.nextId) ∧
  (allIds s).Nodup

def C2trace : List Event :=
  [Event.connect, Event.msg 0 (InMsg.identify "host"),
   Event.msg 0 (InMsg.createGame "Q" ["A", "B", "C", "D", "E", "F", "G"])]

def C2wTrace : List Event :=
  [Event.connect, Event.msg 0 (InMsg.identify "host"),
   Event.msg 0 (InMsg.createGame "Q" ["A", "B"])]

def C8trace : List Event :=
  [Event.connect, Event.msg 0 (InMsg.identify "host"),
   Event.msg 0 (InMsg.identify "player")]

def C5wTrace : List Event :=
  [Event.connect, Event.msg 0 (InMsg.identify "host"),
   Event.msg 0 (InMsg.createGame "Q" ["A", "B"])]

def C6wTrace : List Event :=
  [Event.connect, Event.connect,
   Event.msg 0 (InMsg.identify "host"),
   Event.msg 0 (InMsg.createGame "Q" ["A", "B"]),
   Event.msg 1 (InMsg.identify "player"),
   Event.msg 1 (InMsg.join (some 100001) "Ann"),
   Event.msg 0 InMsg.startPoll,
   Event.msg 1 (InMsg.vote (some 0))]

def C10wTrace : List Event :=
  [Event.connect, Event.msg 0 (InMsg.identify "host"),
   Event.msg 0 (InMsg.createGame "Q" ["A", "B"]),
   Event.msg 0 InMsg.startPoll]

def C7trace : List Event :=
  [Event.connect, Event.msg 0 (InMsg.identify "host"),
   Event.msg 0 (InMsg.createGame "   " ["A", "B"])]

def C9trace : List Event :=
  [Event.connect, Event.connect,
   Event.msg 0 (InMsg.identify "host"),
   Event.msg 0 (InMsg.createGame "Q" ["A", "B"]),
   Event.msg 1 (InMsg.identify "player"),
   Event.msg 1 (InMsg.join (some 100001) "Ann"),
   Event.msg 1 (InMsg.join (some 100001) "Ann")]

def C4trace : List Event :=
  [Event.connect, Event.connect,
   Event.msg 0 (InMsg.identify "host"),
   Event.msg 0 (InMsg.createGame "Q" ["A", "B"]),
   Event.msg 1 (InMsg.identify "player"),
   Event.msg 1 (InMsg.join (some 100001) "Ann"),
   Event.msg 0 (InMsg.createGame "Q2" ["C", "D"]),
   Event.msg 0 InMsg.endPoll,
   Event.close 0]

def C4wTrace : List Event :=
  [Event.connect, Event.connect,
   Event.msg 0 (InMsg.identify "host"),
   Event.msg 0 (InMsg.createGame "Q" ["A", "B"]),
   Event.msg 1 (InMsg.identify "player"),
   Event.msg 1 (InMsg.join (some 100001) "Ann")]

/-- The JavaScript number 1.5 (exactly representable), as a rational. -/
def threeHalves : ℚ := Rat.mk' 3 2 (by decide) (by norm_num)

def C3trace : List Event :=
  [Event.connect, Event.connect,
   Event.msg 0 (InMsg.identify "host"),
   Event.msg 0 (InMsg.createGame "Q" ["A", "B", "C"]),
   Event.msg 1 (InMsg.identify "player"),
   Event.msg 1 (InMsg.join (some 100001) "Ann"),
   Event.msg 0 InMsg.startPoll,
   Event.msg 1 (InMsg.vote (some threeHalves))]

def C3wTrace : List Event :=
  [Event.connect, Event.connect,
   Event.msg 0 (InMsg.identify "host"),
   Event.msg 0 (InMsg.createGame "Q" ["A", "B"]),
   Event.msg 1 (InMsg.identify "player"),
   Event.msg 1 (InMsg.join (some 100001) "Ann"),
   Event.msg 0 InMsg.startPoll]

/-- One roster pass step of `countVotes` (the body of its `forEach`). -/
def voteStep (counts : List Nat) (p : Player) : List Nat :=
  match p.choiceIndex with
  | some q => bump counts q
  | none => counts

/-- Whether a player's recorded choice lands in a bucket of a
`n`-option tally: it must be an integral number in `[0, n)`. -/
def countedChoice (n : Nat) (p : Player) : Bool :=
  match p.choiceIndex with
  | some q => decide (q.den = 1 ∧ 0 ≤ q.num ∧ q.num.toNat < n)
  | none => false

/-- The JavaScript number 0.5, as a rational. -/
def half : ℚ := Rat.mk' 1 2 (by decide) (by norm_num)

def C1trace : List Event :=
  [Event.connect, Event.connect,
   Event.msg 0 (InMsg.identify "host"),
   Event.msg 0 (InMsg.createGame "Q" ["A", "B"]),
   Event.msg 1 (InMsg.identify "player"),
   Event.msg 1 (InMsg.join (some 100001) "Ann"),
   Event.msg 0 InMsg.startPoll,
   Event.msg 1 (InMsg.vote (some half)),
   Event.msg 0 InMsg.endPoll]

def C1wTrace : List Event :=
  [Event.connect, Event.connect,
   Event.msg 0 (InMsg.identify "host"),
   Event.msg 0 (InMsg.createGame "Q" ["A", "B"]),
   Event.msg 1 (InMsg.identify "player"),
   Event.msg 1 (InMsg.join (some 100001) "Ann"),
   Event.msg 0 InMsg.startPoll,
   Event.msg 1 (InMsg.vote (some 0)),
   Event.msg 0 InMsg.endPoll]

theorem reachable_exec (s : ServerState) (es : List Event) (h : Reachable s) :
    Reachable (exec s es) := by
  induction es generalizing s with
  | nil => exact h
  | cons e es ih => exact ih _ (Reachable.step s e h)

theorem run_fst_aux (es : List Event) (s : ServerState) (out : List Sent) :
    (es.foldl (fun acc e =>
      let r := step acc.1 e
      (r.1, acc.2 ++ r.2)) (s, out)).1 = exec s es := by
  induction es generalizing s out with
  | nil => rfl
  | cons e es ih => simpa [exec] using ih (step s e).1 (out ++ (step s e).2)

/-- Every state produced by running a trace from the empty server is
reachable. -/
theorem reachable_run (es : List Event) : Reachable (run es).1 := by
  rw [run, run_fst_aux]
  exact reachable_exec init es Reachable.init

@[simp] theorem games_updateConn (s : ServerState) (c : ConnId) (f : Conn → Conn) :
    (updateConn s c f).games = s.games := rfl

@[simp] theorem nextId_updateConn (s : ServerState) (c : ConnId) (f : Conn → Conn) :
    (updateConn s c f).nextId = s.nextId := rfl

@[simp] theorem conns_updateGame (s : ServerState) (k : Code) (f : Game → Game) :
    (updateGame s k f).conns = s.conns := rfl

@[simp] theorem nextId_updateGame (s : ServerState) (k : Code) (f : Game → Game) :
    (updateGame s k f).nextId = s.nextId := rfl

@[simp] theorem lookupGame_updateConn (s : ServerState) (c : ConnId)
    (f : Conn → Conn) (k : Code) :
    lookupGame (updateConn s c f) k = lookupGame s k := rfl

@[simp] theorem lookupConn_updateGame (s : ServerState) (k : Code)
    (f : Game → Game) (c : ConnId) :
    lookupConn (updateGame s k f) c = lookupConn s c := rfl

@[simp] theorem connIsOpen_updateGame (s : ServerState) (k : Code)
    (f : Game → Game) (c : ConnId) :
    connIsOpen (updateGame s k f) c = connIsOpen s c := rfl

@[simp] theorem send_updateGame (s : ServerState) (k : Code) (f : Game → Game)
    (c : ConnId) (m : OutMsg) : send (updateGame s k f) c m = send s c m := rfl

theorem lookupGame_code (s : ServerState) (k : Code) (g : Game)
    (h : lookupGame s k = some g) : g.code = k := by
  have := List.find?_some h
  simpa using this

theorem lookupGame_mem (s : ServerState) (k : Code) (g : Game)
    (h : lookupGame s k = some g) : g ∈ s.games :=
  List.mem_of_find?_eq_some h

theorem lookupConn_id (s : ServerState) (c : ConnId) (cn : Conn)
    (h : lookupConn s c = some cn) : cn.id = c := by
  have := List.find?_some h
  simpa using this

theorem lookupConn_mem (s : ServerState) (c : ConnId) (cn : Conn)
    (h : lookupConn s c = some cn) : cn ∈ s.conns :=
  List.mem_of_find?_eq_some h

/-- Looking a code up after an in-place mutation that keeps every game's
code: the stored game is transformed accordingly. -/
theorem lookupGame_updateGame (s : ServerState) (k k' : Code) (f : Game → Game)
    (hf : ∀ g, (f g).code = g.code) :
    lookupGame (updateGame s k f) k' =
      (lookupGame s k').map (fun g => if g.code = k then f g else g) := by
  unfold lookupGame updateGame
  rw [List.find?_map]
  have hfn : ((fun g => decide (g.code = k')) ∘ fun g => if g.code = k then f g else g)
      = (fun g => decide (g.code = k')) := by
    funext g
    by_cases h : g.code = k <;> simp [h, hf]
  rw [hfn]

theorem lookupConn_updateConn (s : ServerState) (c c' : ConnId) (f : Conn → Conn)
    (hf : ∀ cn, (f cn).id = cn.id) :
    lookupConn (updateConn s c f) c' =
      (lookupConn s c').map (fun cn => if cn.id = c then f cn else cn) := by
  unfold lookupConn updateConn
  rw [List.find?_map]
  have hfn : ((fun cn => decide (cn.id = c')) ∘ fun cn => if cn.id = c then f cn else cn)
      = (fun cn => decide (cn.id = c')) := by
    funext cn
    by_cases h : cn.id = c <;> simp [h, hf]
  rw [hfn]

theorem connIsOpen_updateConn (s : ServerState) (c c' : ConnId) (f : Conn → Conn)
    (hid : ∀ cn, (f cn).id = cn.id) (hso : ∀ cn, (f cn).sockOpen = cn.sockOpen) :
    connIsOpen (updateConn s c f) c' = connIsOpen s c' := by
  unfold connIsOpen
  rw [lookupConn_updateConn s c c' f hid]
  cases h : lookupConn s c' with
  | none => rfl
  | some cn => by_cases hc : cn.id = c <;> simp [hc, hso]

theorem send_updateConn (s : ServerState) (c c' : ConnId) (f : Conn → Conn)
    (hid : ∀ cn, (f cn).id = cn.id) (hso : ∀ cn, (f cn).sockOpen = cn.sockOpen)
    (m : OutMsg) : send (updateConn s c f) c' m = send s c' m := by
  unfold send
  rw [connIsOpen_updateConn s c c' f hid hso]

theorem trimOptions_ne_empty (opts : List String) (o : String)
    (h : o ∈ trimOptions opts) : o ≠ "" := by
  unfold trimOptions at h
  exact of_decide_eq_true (List.mem_filter.mp h).2

theorem foldl_max_le_self (gs : List Game) (a : Nat) :
    a ≤ gs.foldl (fun m g => max m g.code) a := by
  induction gs generalizing a with
  | nil => exact le_refl a
  | cons g gs ih => exact le_trans (le_max_left a g.code) (ih _)

theorem code_le_foldl_max (gs : List Game) (a : Nat) (g : Game) (hg : g ∈ gs) :
    g.code ≤ gs.foldl (fun m g => max m g.code) a := by
  induction gs generalizing a with
  | nil => cases hg
  | cons g' gs ih =>
    rcases List.mem_cons.mp hg with h | h
    · subst h
      exact le_trans (le_max_right a g.code) (foldl_max_le_self gs _)
    · exact ih _ h

/-- The code picked at creation differs from every live game's code. -/
theorem generateGameCode_not_mem (s : ServerState) (g : Game) (hg : g ∈ s.games) :
    g.code ≠ generateGameCode s := by
  unfold generateGameCode
  exact Nat.ne_of_lt (Nat.lt_succ_of_le (code_le_foldl_max s.games 100000 g hg))

theorem allIds_updateGame (s : ServerState) (k : Code) (f : Game → Game)
    (hf : ∀ g, gameIds (f g) = gameIds g) :
    allIds (updateGame s k f) = allIds s := by
  unfold allIds updateGame
  show ((s.games.map fun g => if g.code = k then f g else g).map gameIds).flatten
      = (s.games.map gameIds).flatten
  rw [List.map_map]
  congr 1
  apply List.map_congr_left
  intro g _
  by_cases h : g.code = k <;> simp [h, hf]

theorem codes_updateGame (s : ServerState) (k : Code) (f : Game → Game)
    (hf : ∀ g, (f g).code = g.code) :
    (updateGame s k f).games.map Game.code = s.games.map Game.code := by
  unfold updateGame
  show (s.games.map fun g => if g.code = k then f g else g).map Game.code
      = s.games.map Game.code
  rw [List.map_map]
  apply List.map_congr_left
  intro g _
  by_cases h : g.code = k <;> simp [h, hf]

theorem gameInv_updateGame (s : ServerState) (k : Code) (f : Game → Game)
    (h : ∀ g ∈ s.games, GameInv g) (hf : ∀ g, GameInv g → GameInv (f g)) :
    ∀ g ∈ (updateGame s k f).games, GameInv g := by
  intro g hg
  have : g ∈ s.games.map fun g => if g.code = k then f g else g := hg
  rcases List.mem_map.mp this with ⟨g₀, hg₀, rfl⟩
  by_cases hc : g₀.code = k
  · simpa [hc] using hf g₀ (h g₀ hg₀)
  · simpa [hc] using h g₀ hg₀

theorem gameInv_resetPlayers (g : Game) (h : GameInv g) (st : GState) :
    GameInv { g with state := st, players := g.players.map resetPlayer } := by
  obtain ⟨h1, h2, _, _⟩ := h
  refine ⟨h1, h2, ?_, ?_⟩
  · intro p hp
    rcases List.mem_map.mp hp with ⟨p₀, _, rfl⟩
    simp [resetPlayer]
  · intro p hp q hq
    rcases List.mem_map.mp hp with ⟨p₀, _, rfl⟩
    simp [resetPlayer] at hq

theorem gameInv_newOptions (g : Game) (q' : String) (opts : List String)
    (hlen : 2 ≤ (trimOptions opts).length) (st : GState) :
    GameInv { g with question := q', options := trimOptions opts, state := st,
                     players := g.players.map resetPlayer } := by
  refine ⟨hlen, ?_, ?_, ?_⟩
  · intro o ho
    exact trimOptions_ne_empty opts o ho
  · intro p hp
    rcases List.mem_map.mp hp with ⟨p₀, _, rfl⟩
    simp [resetPlayer]
  · intro p hp q hq
    rcases List.mem_map.mp hp with ⟨p₀, _, rfl⟩
    simp [resetPlayer] at hq

theorem gameInv_setState (g : Game) (h : GameInv g) (st : GState) :
    GameInv { g with state := st } := h

theorem gameInv_addPlayer (g : Game) (h : GameInv g) (pl : Player)
    (hv : pl.hasVoted = false) (hc : pl.choiceIndex = none) :
    GameInv { g with players := g.players ++ [pl] } := by
  obtain ⟨h1, h2, h3, h4⟩ := h
  refine ⟨h1, h2, ?_, ?_⟩
  · intro p hp
    rcases List.mem_append.mp hp with h | h
    · exact h3 p h
    · rcases List.mem_singleton.mp h with rfl
      simp [hv, hc]
  · intro p hp q hq
    rcases List.mem_append.mp hp with h | h
    · exact h4 p h q hq
    · rcases List.mem_singleton.mp h with rfl
      rw [hc] at hq
      cases hq

theorem gameInv_vote (g : Game) (h : GameInv g) (pid : PlayerId) (q : ℚ)
    (h0 : 0 ≤ q) (hlt : q < (g.options.length : ℚ)) :
    GameInv { g with players := g.players.map (fun p =>
      if p.id = pid then { p with hasVoted := true, choiceIndex := some q }
      else p) } := by
  obtain ⟨h1, h2, h3, h4⟩ := h
  refine ⟨h1, h2, ?_, ?_⟩
  · intro p hp
    rcases List.mem_map.mp hp with ⟨p₀, hp₀, rfl⟩
    by_cases hid : p₀.id = pid
    · simp [hid]
    · simpa [hid] using h3 p₀ hp₀
  · intro p hp q' hq'
    rcases List.mem_map.mp hp with ⟨p₀, hp₀, rfl⟩
    by_cases hid : p₀.id = pid
    · simp only [hid, if_pos] at hq'
      simp only [Option.some.injEq] at hq'
      · cases hq'
        exact ⟨h0, hlt⟩
    · simp only [hid, if_neg, ite_false] at hq'
      exact h4 p₀ hp₀ q' hq'

theorem gameInv_filterPlayers (g : Game) (h : GameInv g) (pred : Player → Bool) :
    GameInv { g with players := g.players.filter pred } := by
  obtain ⟨h1, h2, h3, h4⟩ := h
  refine ⟨h1, h2, ?_, ?_⟩
  · intro p hp
    exact h3 p (List.mem_of_mem_filter hp)
  · intro p hp q hq
    exact h4 p (List.mem_of_mem_filter hp) q hq

theorem mem_allIds_join (gs : List Game) (k : Code) (pl : Player) (y : PlayerId)
    (hy : y ∈ ((gs.map (fun g =>
      if g.code = k then { g with players := g.players ++ [pl] } else g)).map
        gameIds).flatten) :
    y ∈ (gs.map gameIds).flatten ∨ y = pl.id := by
  induction gs with
  | nil => simp at hy
  | cons g gs ih =>
    simp only [List.map_cons, List.flatten_cons, List.mem_append] at hy ⊢
    rcases hy with hy | hy
    · by_cases hc : g.code = k
      · simp only [hc, if_pos, gameIds, List.map_append, List.mem_append] at hy
        rcases hy with hy | hy
        · exact Or.inl (Or.inl hy)
        · simp at hy
          exact Or.inr hy
      · simp only [hc, ite_false] at hy
        exact Or.inl (Or.inl hy)
    · rcases ih hy with h | h
      · exact Or.inl (Or.inr h)
      · exact Or.inr h

theorem nodup_allIds_join (gs : List Game) (k : Code) (pl : Player)
    (hnd : ((gs.map gameIds).flatten).Nodup)
    (hcodes : (gs.map Game.code).Nodup)
    (hx : pl.id ∉ (gs.map gameIds).flatten) :
    (((gs.map (fun g =>
      if g.code = k then { g with players := g.players ++ [pl] } else g)).map
        gameIds).flatten).Nodup := by
  induction gs with
  | nil => simp
  | cons g gs ih =>
    simp only [List.map_cons, List.flatten_cons] at hnd hx ⊢
    simp only [List.map_cons] at hcodes
    rw [List.nodup_append] at hnd
    obtain ⟨hnd₁, hnd₂, hdisj⟩ := hnd
    rw [List.nodup_cons] at hcodes
    obtain ⟨hcode₁, hcodes₂⟩ := hcodes
    simp only [List.mem_append] at hx
    push_neg at hx
    obtain ⟨hx₁, hx₂⟩ := hx
    by_cases hc : g.code = k
    · have htail : gs.map (fun g' =>
          if g'.code = k then { g' with players := g'.players ++ [pl] } else g') = gs := by
        apply List.map_congr_left ?_ |>.trans (List.map_id gs)
        intro g' hg'
        have : g'.code ≠ k := by
          intro hk
          exact hcode₁ (by
            rw [hc, ← hk]
            exact List.mem_map.mpr ⟨g', hg', rfl⟩)
        simp [this]
      rw [htail]
      have hhead : gameIds { g with players := g.players ++ [pl] }
          = gameIds g ++ [pl.id] := by
        simp [gameIds]
      rw [if_pos hc, hhead]
      rw [List.append_assoc, List.singleton_append, List.nodup_middle]
      exact List.nodup_cons.mpr ⟨by simp [hx₁, hx₂], List.nodup_append.mpr ⟨hnd₁, hnd₂, hdisj⟩⟩
    · rw [if_neg hc]
      rw [List.nodup_append]
      refine ⟨hnd₁, ih hnd₂ hcodes₂ hx₂, ?_⟩
      intro y hy hy'
      rcases mem_allIds_join gs k pl y hy' with h | h
      · exact hdisj hy h
      · exact hx₁ (h ▸ hy)

theorem flatten_sublist_flatten {α : Type} {L₁ L₂ : List (List α)}
    (h : List.Sublist L₁ L₂) : List.Sublist L₁.flatten L₂.flatten := by
  induction h with
  | slnil => simp
  | cons l _ ih =>
    rw [List.flatten_cons]
    exact ih.trans (List.sublist_append_right l _)
  | cons₂ l _ ih =>
    rw [List.flatten_cons, List.flatten_cons]
    exact ih.append_left l

theorem flatten_map_sublist (gs : List Game) (F : Game → Game)
    (h : ∀ g, List.Sublist (gameIds (F g)) (gameIds g)) :
    List.Sublist (((gs.map F).map gameIds).flatten) ((gs.map gameIds).flatten) := by
  induction gs with
  | nil => simp
  | cons g gs ih =>
    simp only [List.map_cons, List.flatten_cons]
    exact List.Sublist.append (h g) ih

theorem stateInv_updateConn (s : ServerState) (c : ConnId) (f : Conn → Conn) :
    StateInv (updateConn s c f) ↔ StateInv s := Iff.rfl

/-- With pairwise-distinct codes, the game `find?` returns for a code is
the only roster member carrying that code. -/
theorem find?_code_unique (gs : List Game) (k : Code) (g : Game)
    (hnd : (gs.map Game.code).Nodup)
    (hfind : gs.find? (fun g => g.code = k) = some g) :
    ∀ g' ∈ gs, g'.code = k → g' = g := by
  induction gs with
  | nil => simp at hfind
  | cons a gs ih =>
    simp only [List.map_cons, List.nodup_cons] at hnd
    intro g' hg' hk
    rcases List.mem_cons.mp hg' with rfl | hmem
    · rw [List.find?_cons_of_pos _ (by simp [hk])] at hfind
      cases hfind
      rfl
    · by_cases ha : a.code = k
      · have : a.code ∈ gs.map Game.code := by
          rw [ha, ← hk]
          exact List.mem_map.mpr ⟨g', hmem, rfl⟩
        exact absurd this hnd.1
      · rw [List.find?_cons_of_neg _ (by simp [ha])] at hfind
        exact ih hnd.2 hfind g' hmem hk

/-- `StateInv` is preserved by an in-place game mutation that keeps the
code, the player identifiers and `GameInv`. -/
theorem stateInv_updateGame (s : ServerState) (k : Code) (f : Game → Game)
    (h : StateInv s) (hinv : ∀ g, GameInv g → GameInv (f g))
    (hcode : ∀ g, (f g).code = g.code)
    (hids : ∀ g, gameIds (f g) = gameIds g) :
    StateInv (updateGame s k f) := by
  obtain ⟨h1, h2, h3, h4⟩ := h
  refine ⟨gameInv_updateGame s k f h1 hinv, ?_, ?_, ?_⟩
  · rw [codes_updateGame s k f hcode]
    exact h2
  · intro y hy
    rw [allIds_updateGame s k f hids] at hy
    exact h3 y hy
  · rw [allIds_updateGame s k f hids]
    exact h4

/-- Variant of `stateInv_updateGame` where `GameInv` preservation is
known only for the stored game under `k` (enough, since codes are
pairwise distinct). -/
theorem stateInv_updateGame_at (s : ServerState) (k : Code) (f : Game → Game)
    (h : StateInv s) (g : Game) (hg : lookupGame s k = some g)
    (hinv : GameInv g → GameInv (f g))
    (hcode : ∀ g', (f g').code = g'.code)
    (hids : ∀ g', gameIds (f g') = gameIds g') :
    StateInv (updateGame s k f) := by
  obtain ⟨h1, h2, h3, h4⟩ := h
  have huniq := find?_code_unique s.games k g h2 hg
  refine ⟨?_, ?_, ?_, ?_⟩
  · intro g' hg'
    have : g' ∈ s.games.map fun g' => if g'.code = k then f g' else g' := hg'
    rcases List.mem_map.mp this with ⟨g₀, hg₀, rfl⟩
    by_cases hc : g₀.code = k
    · rcases huniq g₀ hg₀ hc with rfl
      simpa [hc] using hinv (h1 g₀ hg₀)
    · simpa [hc] using h1 g₀ hg₀
  · rw [codes_updateGame s k f hcode]
    exact h2
  · intro y hy
    rw [allIds_updateGame s k f hids] at hy
    exact h3 y hy
  · rw [allIds_updateGame s k f hids]
    exact h4

/-- `StateInv` survives an in-place mutation that only drops players. -/
theorem stateInv_updateGame_sub (s : ServerState) (k : Code) (f : Game → Game)
    (h : StateInv s) (hinv : ∀ g, GameInv g → GameInv (f g))
    (hcode : ∀ g, (f g).code = g.code)
    (hids : ∀ g, List.Sublist (gameIds (f g)) (gameIds g)) :
    StateInv (updateGame s k f) := by
  obtain ⟨h1, h2, h3, h4⟩ := h
  have hsub : List.Sublist (allIds (updateGame s k f)) (allIds s) := by
    show List.Sublist
      (((s.games.map fun g => if g.code = k then f g else g).map gameIds).flatten)
      ((s.games.map gameIds).flatten)
    refine flatten_map_sublist s.games _ ?_
    intro g
    by_cases hc : g.code = k
    · simpa [hc] using hids g
    · simp [hc]
  refine ⟨gameInv_updateGame s k f h1 hinv, ?_, ?_, ?_⟩
  · rw [codes_updateGame s k f hcode]
    exact h2
  · intro y hy
    exact h3 y (hsub.subset hy)
  · exact List.Nodup.sublist hsub h4

theorem stateInv_filterGames (s : ServerState) (pred : Game → Bool)
    (h : StateInv s) : StateInv { s with games := s.games.filter pred } := by
  obtain ⟨h1, h2, h3, h4⟩ := h
  have hsub : List.Sublist (s.games.filter pred) s.games := List.filter_sublist _
  have hids : List.Sublist (allIds { s with games := s.games.filter pred })
      (allIds s) := by
    show List.Sublist (((s.games.filter pred).map gameIds).flatten)
      ((s.games.map gameIds).flatten)
    exact flatten_sublist_flatten (hsub.map gameIds)
  refine ⟨?_, ?_, ?_, ?_⟩
  · intro g hg
    exact h1 g (List.mem_of_mem_filter hg)
  · exact List.Nodup.sublist (hsub.map Game.code) h2
  · intro y hy
    exact h3 y (hids.subset hy)
  · exact List.Nodup.sublist hids h4

theorem stateInv_appendGame (s : ServerState) (g : Game)
    (h : StateInv s) (hg : GameInv g)
    (hcode : ∀ g' ∈ s.games, g'.code ≠ g.code)
    (hplayers : g.players = []) :
    StateInv { s with games := s.games ++ [g] } := by
  obtain ⟨h1, h2, h3, h4⟩ := h
  have hall : allIds { s with games := s.games ++ [g] } = allIds s := by
    show ((s.games ++ [g]).map gameIds).flatten = (s.games.map gameIds).flatten
    rw [List.map_append, List.flatten_append]
    simp [gameIds, hplayers]
  refine ⟨?_, ?_, ?_, ?_⟩
  · intro g' hg'
    rcases List.mem_append.mp hg' with h | h
    · exact h1 g' h
    · rcases List.mem_singleton.mp h with rfl
      exact hg
  · show ((s.games ++ [g]).map Game.code).Nodup
    rw [List.map_append, List.nodup_append]
    refine ⟨h2, List.nodup_singleton _, ?_⟩
    intro y hy hy'
    rcases List.mem_singleton.mp hy' with rfl
    rcases List.mem_map.mp hy with ⟨g', hg', hc⟩
    exact hcode g' hg' hc
  · intro y hy
    rw [hall] at hy
    exact h3 y hy
  · rw [hall]
    exact h4

theorem stateInv_join (s : ServerState) (k : Code) (pl : Player)
    (h : StateInv s) (hv : pl.hasVoted = false) (hc : pl.choiceIndex = none)
    (hid : pl.id = s.nextId) :
    StateInv (updateGame { s with nextId := s.nextId + 1 } k
      (fun g => { g with players := g.players ++ [pl] })) := by
  obtain ⟨h1, h2, h3, h4⟩ := h
  have hfresh : pl.id ∉ allIds s := by
    intro hmem
    have hlt := h3 pl.id hmem
    rw [hid] at hlt
    exact lt_irrefl _ hlt
  refine ⟨?_, ?_, ?_, ?_⟩
  · exact gameInv_updateGame { s with nextId := s.nextId + 1 } k _ h1
      (fun g hg => gameInv_addPlayer g hg pl hv hc)
  · show ((s.games.map fun g =>
      if g.code = k then { g with players := g.players ++ [pl] } else g).map
        Game.code).Nodup
    rw [List.map_map]
    have : ((fun g : Game => Game.code g) ∘ fun g =>
        if g.code = k then { g with players := g.players ++ [pl] } else g)
        = Game.code := by
      funext g
      by_cases hck : g.code = k <;> simp [hck]
    rw [this]
    exact h2
  · intro y hy
    have hy' : y ∈ allIds s ∨ y = pl.id := mem_allIds_join s.games k pl y hy
    show y < s.nextId + 1
    rcases hy' with hmem | rfl
    · exact Nat.lt_succ_of_lt (h3 y hmem)
    · rw [hid]
      exact Nat.lt_succ_self _
  · exact nodup_allIds_join s.games k pl h4 h2 hfresh

theorem stateInv_handleConnect (s : ServerState) (h : StateInv s) :
    StateInv (handleConnect s) := by
  obtain ⟨h1, h2, h3, h4⟩ := h
  exact ⟨h1, h2, fun y hy => Nat.lt_succ_of_lt (h3 y hy), h4⟩

theorem stateInv_handleIdentify (s : ServerState) (c : ConnId) (r : String)
    (h : StateInv s) : StateInv (handleIdentify s c r).1 := by
  unfold handleIdentify
  split
  · exact (stateInv_updateConn _ _ _).mpr h
  · split
    · exact (stateInv_updateConn _ _ _).mpr h
    · exact h

theorem stateInv_handleCreateGame (s : ServerState) (c : ConnId)
    (question : String) (options : List String)
    (h : StateInv s) : StateInv (handleCreateGame s c question options).1 := by
  unfold handleCreateGame
  split
  · exact h
  split
  · exact h
  dsimp only
  split
  · exact h
  next hlen =>
    refine (stateInv_updateConn _ _ _).mpr ?_
    refine stateInv_appendGame s _ h ⟨?_, ?_, ?_, ?_⟩ ?_ rfl
    · show 2 ≤ (trimOptions options).length
      omega
    · show ∀ o ∈ trimOptions options, o ≠ ""
      intro o ho
      exact trimOptions_ne_empty options o ho
    · show ∀ p ∈ ([] : List Player), _
      intro p hp
      cases hp
    · show ∀ p ∈ ([] : List Player), _
      intro p hp
      cases hp
    · intro g' hg'
      exact generateGameCode_not_mem s g' hg'

theorem ids_map_resetPlayer (ps : List Player) :
    (ps.map resetPlayer).map Player.id = ps.map Player.id := by
  rw [List.map_map]
  apply List.map_congr_left
  intro p _
  rfl

theorem ids_map_voteUpdate (ps : List Player) (pid : PlayerId) (q : ℚ) :
    (ps.map (fun p => if p.id = pid then
      { p with hasVoted := true, choiceIndex := some q } else p)).map Player.id
      = ps.map Player.id := by
  rw [List.map_map]
  apply List.map_congr_left
  intro p _
  by_cases h : p.id = pid <;> simp [h]

theorem stateInv_handleUpdatePoll (s : ServerState) (c : ConnId)
    (question : String) (options : List String)
    (h : StateInv s) : StateInv (handleUpdatePoll s c question options).1 := by
  unfold handleUpdatePoll
  split
  · exact h
  split
  · exact h
  next code hceq =>
    split
    · exact h
    next g0 hg0 =>
      split
      · exact h
      dsimp only
      split
      · exact h
      next hlen =>
        have hs' : StateInv (updateGame s code (fun g =>
            { g with question := jsTrim question, options := trimOptions options,
                     state := GState.lobby, players := g.players.map resetPlayer })) := by
          refine stateInv_updateGame s code _ h ?_ (fun g => rfl) ?_
          · intro g _
            exact gameInv_newOptions g (jsTrim question) options (by omega) GState.lobby
          · intro g
            show ((g.players.map resetPlayer).map Player.id) = g.players.map Player.id
            exact ids_map_resetPlayer g.players
        split
        · exact hs'
        · exact hs'

theorem stateInv_handleStartPoll (s : ServerState) (c : ConnId)
    (h : StateInv s) : StateInv (handleStartPoll s c).1 := by
  unfold handleStartPoll
  split
  · exact h
  split
  · exact h
  next code hceq =>
    split
    · exact h
    next g0 hg0 =>
      split
      · exact h
      have hs' : StateInv (updateGame s code (fun g =>
          { g with state := GState.active, players := g.players.map resetPlayer })) := by
        refine stateInv_updateGame s code _ h ?_ (fun g => rfl) ?_
        · intro g hg
          exact gameInv_resetPlayers g hg GState.active
        · intro g
          show ((g.players.map resetPlayer).map Player.id) = g.players.map Player.id
          exact ids_map_resetPlayer g.players
      dsimp only
      split
      · exact hs'
      · exact hs'

theorem stateInv_handleEndPoll (s : ServerState) (c : ConnId)
    (h : StateInv s) : StateInv (handleEndPoll s c).1 := by
  unfold handleEndPoll
  split
  · exact h
  split
  · exact h
  next code hceq =>
    split
    · exact h
    next g0 hg0 =>
      split
      · exact h
      have hs' : StateInv (updateGame s code
          (fun g => { g with state := GState.ended })) := by
        refine stateInv_updateGame s code _ h ?_ (fun g => rfl) (fun g => rfl)
        intro g hg
        exact gameInv_setState g hg GState.ended
      dsimp only
      split
      · exact hs'
      · exact hs'

theorem stateInv_handleJoin (s : ServerState) (c : ConnId) (code : Option Code)
    (name : String) (h : StateInv s) : StateInv (handleJoin s c code name).1 := by
  unfold handleJoin
  split
  · exact h
  split
  · exact h
  next code =>
    split
    · exact h
    split
    · exact h
    next g0 hg0 =>
      dsimp only
      have hs' : StateInv (updateConn
          (updateGame { s with nextId := s.nextId + 1 } code
            (fun g => { g with players := g.players ++
              [{ id := s.nextId, name := jsSlice 40 (jsTrim name), conn := c,
                 hasVoted := false, choiceIndex := none }] })) c
          (fun cn => { cn with currentGameCode := some code,
                               playerId := some s.nextId })) := by
        refine (stateInv_updateConn _ _ _).mpr ?_
        exact stateInv_join s code _ h rfl rfl rfl
      split
      · exact hs'
      · exact hs'

theorem stateInv_handleVote (s : ServerState) (c : ConnId) (ci : Option ℚ)
    (h : StateInv s) : StateInv (handleVote s c ci).1 := by
  unfold handleVote
  split
  · exact h
  split
  · exact h
  next code hcode =>
    split
    · exact h
    next g hg =>
      split
      · exact h
      split
      · exact h
      next player hplayer =>
        split
        · exact h
        split
        · exact h
        next q =>
          split
          · exact h
          next hrange =>
            have hs' : StateInv (updateGame s code (fun g' =>
                { g' with players := g'.players.map (fun p =>
                    if p.id = player.id then
                      { p with hasVoted := true, choiceIndex := some q }
                    else p) })) := by
              refine stateInv_updateGame_at s code _ h g hg ?_ (fun g' => rfl) ?_
              · intro hginv
                push_neg at hrange
                exact gameInv_vote g hginv player.id q hrange.1 hrange.2
              · intro g'
                show ((g'.players.map _).map Player.id) = g'.players.map Player.id
                exact ids_map_voteUpdate g'.players player.id q
            dsimp only
            split
            · exact hs'
            · exact hs'

theorem stateInv_destroyGame (s : ServerState) (k : Code)
    (h : StateInv s) : StateInv (destroyGame s k).1 := by
  unfold destroyGame
  split
  · exact h
  · exact stateInv_filterGames s _ h

theorem stateInv_handleClose (s : ServerState) (c : ConnId)
    (h : StateInv s) : StateInv (handleClose s c).1 := by
  unfold handleClose
  have h0 : StateInv (updateConn s c (fun cn => { cn with sockOpen := false })) :=
    (stateInv_updateConn _ _ _).mpr h
  dsimp only
  split
  · exact h0
  split
  · exact stateInv_destroyGame _ _ h0
  · split
    · split
      all_goals
        exact stateInv_updateGame_sub _ _ _ h0
          (fun g hg => gameInv_filterPlayers g hg _) (fun g => rfl)
          (fun g => List.Sublist.map Player.id (List.filter_sublist g.players))
    · exact h0
  · exact h0

theorem stateInv_handleMessage (s : ServerState) (c : ConnId) (m : InMsg)
    (h : StateInv s) : StateInv (handleMessage s c m).1 := by
  cases m with
  | identify r => exact stateInv_handleIdentify s c r h
  | createGame q opts => exact stateInv_handleCreateGame s c q opts h
  | updatePoll q opts => exact stateInv_handleUpdatePoll s c q opts h
  | startPoll => exact stateInv_handleStartPoll s c h
  | endPoll => exact stateInv_handleEndPoll s c h
  | join code name => exact stateInv_handleJoin s c code name h
  | vote ci => exact stateInv_handleVote s c ci h
  | unknown => exact h

theorem stateInv_step (s : ServerState) (e : Event) (h : StateInv s) :
    StateInv (step s e).1 := by
  cases e with
  | connect => exact stateInv_handleConnect s h
  | msg c m =>
    show StateInv (if connIsOpen s c then handleMessage s c m else (s, [])).1
    split
    · exact stateInv_handleMessage s c m h
    · exact h
  | close c =>
    show StateInv (if connIsOpen s c then handleClose s c else (s, [])).1
    split
    · exact stateInv_handleClose s c h
    · exact h

/-- Every reachable server state satisfies the global invariant. -/
theorem stateInv_reachable (s : ServerState) (h : Reachable s) : StateInv s := by
  induction h with
  | init =>
    refine ⟨?_, ?_, ?_, ?_⟩ <;> simp [init, allIds, StateInv]
  | step s e _ ih => exact stateInv_step s e ih

/-- C2 (counterexample): the server handlers do not truncate to 6
options.  A `host:create_game` with seven non-empty options is accepted
and the session stores all seven — refuting both "`len(options)` is at
most 6 at every observable instant" and "create and update silently
truncate to the first 6 retained options" (truncation exists only in the
client UI, not in the server validated here). -/
theorem C2_counterexample :
    ((run C2trace).1.games.map (fun g => g.options.length)) = [7] ∧
    ((run C2trace).2.filter (fun x =>
      match x.2 with
      | OutMsg.gameCreated _ _ _ => true
      | _ => false)) =
      [(0, OutMsg.gameCreated 100001 "Q" ["A", "B", "C", "D", "E", "F", "G"])] := by
  constructor
  · decide
  · decide

/-- C2 (amended): at every reachable state, every live session has at
least two options and every option string is non-empty; the upper bound
of 6 is not enforced by the server (see the counterexample). -/
theorem C2_options_invariant (s : ServerState) (hs : Reachable s) :
    ∀ g ∈ s.games, 2 ≤ g.options.length ∧ ∀ o ∈ g.options, o ≠ "" := by
  intro g hg
  obtain ⟨h1, _, _, _⟩ := stateInv_reachable s hs
  exact ⟨(h1 g hg).1, (h1 g hg).2.1⟩

theorem C2_options_invariant_witness :
    2 ≤ (["A", "B"] : List String).length ∧ ∀ o ∈ (["A", "B"] : List String), o ≠ "" := by
  have h := C2_options_invariant (run C2wTrace).1 (reachable_run C2wTrace)
    { code := 100001, hostConn := 0, question := "Q", options := ["A", "B"],
      players := [], state := GState.lobby } (by decide)
  exact h

theorem roleOf_updateConn (s : ServerState) (c d : ConnId) (f : Conn → Conn)
    (hid : ∀ cn, (f cn).id = cn.id) (hrole : ∀ cn, (f cn).role = cn.role) :
    roleOf (updateConn s c f) d = roleOf s d := by
  unfold roleOf
  rw [lookupConn_updateConn s c d f hid]
  cases h : lookupConn s d with
  | none => rfl
  | some cn => by_cases hc : cn.id = c <;> simp [hc, hrole]

/-- C8 (counterexample): a second `identify` carrying a different valid
role overwrites the stored role.  After identifying as host and then as
player, the connection's stored role is `player`, refuting "no
subsequent message — including a later identify carrying a different
role — changes the stored role". -/
theorem C8_counterexample :
    (run C8trace).2 =
      [(0, OutMsg.identified Role.host), (0, OutMsg.identified Role.player)] ∧
    roleOf (run C8trace).1 0 = some Role.player := by
  constructor
  · decide
  · decide

/-- C8 (amended): an `identify` with a recognized role always stores
that role (overwriting any earlier one) and echoes `identified`; an
`identify` with an unrecognized role is rejected with an error and
changes nothing; and no message other than `identify` changes any
connection's stored role. -/
theorem C8_role :
    (∀ s c, handleIdentify s c "host" =
      (updateConn s c (fun cn => { cn with role := some Role.host }),
       send s c (OutMsg.identified Role.host))) ∧
    (∀ s c, handleIdentify s c "player" =
      (updateConn s c (fun cn => { cn with role := some Role.player }),
       send s c (OutMsg.identified Role.player))) ∧
    (∀ s c r, r ≠ "host" → r ≠ "player" →
      handleIdentify s c r = (s, send s c (OutMsg.error "Unknown role specified."))) ∧
    (∀ s c m d, (∀ r, m ≠ InMsg.identify r) →
      roleOf (handleMessage s c m).1 d = roleOf s d) := by
  refine ⟨fun s c => by simp [handleIdentify], fun s c => by simp [handleIdentify],
    fun s c r h1 h2 => by simp [handleIdentify, h1, h2], ?_⟩
  intro s c m d hm
  cases m with
  | identify r => exact absurd rfl (hm r)
  | createGame q opts =>
    unfold handleMessage handleCreateGame
    dsimp only
    split
    · rfl
    split
    · rfl
    split
    · rfl
    exact roleOf_updateConn _ c d _ (fun cn => rfl) (fun cn => rfl)
  | updatePoll q opts =>
    unfold handleMessage handleUpdatePoll
    dsimp only
    repeat' split
    all_goals rfl
  | startPoll =>
    unfold handleMessage handleStartPoll
    dsimp only
    repeat' split
    all_goals rfl
  | endPoll =>
    unfold handleMessage handleEndPoll
    dsimp only
    repeat' split
    all_goals rfl
  | join code name =>
    unfold handleMessage handleJoin
    dsimp only
    repeat' split
    all_goals
      first
      | rfl
      | exact roleOf_updateConn _ c d _ (fun cn => rfl) (fun cn => rfl)
  | vote ci =>
    unfold handleMessage handleVote
    dsimp only
    repeat' split
    all_goals rfl
  | unknown => rfl

theorem C8_role_witness :
    handleIdentify init 0 "admin" =
      (init, send init 0 (OutMsg.error "Unknown role specified.")) ∧
    roleOf (handleMessage init 0 InMsg.startPoll).1 0 = roleOf init 0 :=
  ⟨C8_role.2.2.1 init 0 "admin" (by decide) (by decide),
   C8_role.2.2.2 init 0 InMsg.startPoll 0 (fun r h => by cases h)⟩

theorem lookupGame_updateGame_self (s : ServerState) (k : Code) (f : Game → Game)
    (g : Game) (hg : lookupGame s k = some g) (hf : ∀ g', (f g').code = g'.code) :
    lookupGame (updateGame s k f) k = some (f g) := by
  rw [lookupGame_updateGame s k k f hf, hg]
  simp [lookupGame_code s k g hg]

/-- C5: a `host:start_poll` from a host whose current session exists is
accepted whenever the session is not already active (so from `lobby` or
`ended`): the session becomes `active` and every roster player is reset
to `hasVoted = false` with no recorded choice; when the session is
already active it is rejected with an error and nothing changes. -/
theorem C5_start_poll (s : ServerState) (c : ConnId) (cn : Conn)
    (hcn : lookupConn s c = some cn) (hrole : cn.role = some Role.host)
    (k : Code) (hk : cn.currentGameCode = some k)
    (g : Game) (hg : lookupGame s k = some g)
    (hopen : connIsOpen s c = true) :
    (g.state ≠ GState.active →
      (handleStartPoll s c).1 =
        updateGame s k (fun g' =>
          { g' with state := GState.active, players := g'.players.map resetPlayer }) ∧
      lookupGame (handleStartPoll s c).1 k =
        some { g with state := GState.active, players := g.players.map resetPlayer } ∧
      (∀ g', lookupGame (handleStartPoll s c).1 k = some g' →
        ∀ p ∈ g'.players, p.hasVoted = false ∧ p.choiceIndex = none)) ∧
    (g.state = GState.active →
      handleStartPoll s c = (s, [(c, OutMsg.error "A poll is already in progress.")])) := by
  have h1 : roleOf s c = some Role.host := by simp [roleOf, hcn, hrole]
  have h2 : (lookupConn s c).bind (fun cn => cn.currentGameCode) = some k := by
    simp [hcn, hk]
  unfold handleStartPoll
  rw [h1, if_neg (by simp), h2]
  dsimp only
  rw [hg]
  dsimp only
  constructor
  · intro hst
    rw [if_neg hst]
    have hl := lookupGame_updateGame_self s k
      (fun g' => { g' with state := GState.active, players := g'.players.map resetPlayer })
      g hg (fun g' => rfl)
    try dsimp only
    rw [hl]
    refine ⟨rfl, hl, ?_⟩
    intro g' hg' p hp
    rw [hl] at hg'
    cases hg'
    rcases List.mem_map.mp hp with ⟨p₀, _, rfl⟩
    exact ⟨rfl, rfl⟩
  · intro hst
    rw [if_pos hst]
    simp [send, hopen]

theorem C5_start_poll_witness :
    (handleStartPoll (run C5wTrace).1 0).1 =
      updateGame (run C5wTrace).1 100001 (fun g' =>
        { g' with state := GState.active, players := g'.players.map resetPlayer }) :=
  ((C5_start_poll (run C5wTrace).1 0
    { id := 0, sockOpen := true, role := some Role.host,
      currentGameCode := some 100001, playerId := none }
    (by decide) (by decide) 100001 (by decide)
    { code := 100001, hostConn := 0, question := "Q", options := ["A", "B"],
      players := [], state := GState.lobby }
    (by decide) (by decide)).1 (by decide)).1

/-- C6: a `player:vote` from a roster player who has already voted in
the current active round is rejected with an error regardless of the
carried `choiceIndex`, the state is unchanged, and the tally computed
afterwards equals the tally computed before the attempt. -/
theorem C6_second_vote (s : ServerState) (c : ConnId) (cn : Conn)
    (hcn : lookupConn s c = some cn) (hrole : cn.role = some Role.player)
    (k : Code) (hk : cn.currentGameCode = some k)
    (g : Game) (hg : lookupGame s k = some g)
    (hstate : g.state = GState.active)
    (pid : PlayerId) (hpid : cn.playerId = some pid)
    (p : Player) (hp : g.players.find? (fun p' => p'.id = pid) = some p)
    (hv : p.hasVoted = true)
    (hopen : connIsOpen s c = true) (ci : Option ℚ) :
    handleVote s c ci = (s, [(c, OutMsg.error "You have already voted in this poll.")]) ∧
    (lookupGame (handleVote s c ci).1 k).map countVotes = some (countVotes g) := by
  have h1 : roleOf s c = some Role.player := by simp [roleOf, hcn, hrole]
  have h2 : (lookupConn s c).bind (fun cn => cn.currentGameCode) = some k := by
    simp [hcn, hk]
  have h3 : ((lookupConn s c).bind (fun cn => cn.playerId)).bind
      (fun pid => g.players.find? (fun p' => p'.id = pid)) = some p := by
    simp [hcn, hpid, hp]
  have hres : handleVote s c ci =
      (s, [(c, OutMsg.error "You have already voted in this poll.")]) := by
    unfold handleVote
    rw [h1, if_neg (by simp), h2]
    dsimp only
    rw [hg]
    dsimp only
    rw [if_neg (by simp [hstate]), h3]
    dsimp only
    rw [if_pos hv]
    simp [send, hopen]
  refine ⟨hres, ?_⟩
  rw [hres]
  simp [hg]

theorem C6_second_vote_witness :
    handleVote (run C6wTrace).1 1 (some 1) =
      ((run C6wTrace).1,
       [(1, OutMsg.error "You have already voted in this poll.")]) :=
  (C6_second_vote (run C6wTrace).1 1
    { id := 1, sockOpen := true, role := some Role.player,
      currentGameCode := some 100001, playerId := some 2 }
    (by decide) (by decide) 100001 (by decide)
    { code := 100001, hostConn := 0, question := "Q", options := ["A", "B"],
      players := [{ id := 2, name := "Ann", conn := 1, hasVoted := true,
                    choiceIndex := some 0 }],
      state := GState.active }
    (by decide) (by decide) 2 (by decide)
    { id := 2, name := "Ann", conn := 1, hasVoted := true, choiceIndex := some 0 }
    (by decide) (by decide) (by decide) (some 1)).1

/-- C10: a `host:update_poll` carrying a valid question and options is
accepted with no precondition on the session state (`lobby`, `active`
and `ended` alike): the question and options are replaced, the state is
forced back to `lobby`, every roster player is reset, and every
still-open roster player is sent `poll:reset`. -/
theorem C10_update_any_state (s : ServerState) (c : ConnId) (cn : Conn)
    (hcn : lookupConn s c = some cn) (hrole : cn.role = some Role.host)
    (k : Code) (hk : cn.currentGameCode = some k)
    (g : Game) (hg : lookupGame s k = some g)
    (question : String) (options : List String)
    (hq : question ≠ "") (hlen : 2 ≤ options.length)
    (hlen2 : 2 ≤ (trimOptions options).length) :
    lookupGame (handleUpdatePoll s c question options).1 k =
      some { g with question := jsTrim question, options := trimOptions options,
                    state := GState.lobby, players := g.players.map resetPlayer } ∧
    (∀ g', lookupGame (handleUpdatePoll s c question options).1 k = some g' →
      g'.state = GState.lobby ∧
      ∀ p ∈ g'.players, p.hasVoted = false ∧ p.choiceIndex = none) ∧
    (∀ p ∈ g.players, connIsOpen s p.conn = true →
      (p.conn, OutMsg.pollReset
        "The host is preparing a new poll. Please wait for the next question.")
        ∈ (handleUpdatePoll s c question options).2) := by
  have h1 : roleOf s c = some Role.host := by simp [roleOf, hcn, hrole]
  have h2 : (lookupConn s c).bind (fun cn => cn.currentGameCode) = some k := by
    simp [hcn, hk]
  have hl := lookupGame_updateGame_self s k
    (fun g' => { g' with question := jsTrim question, options := trimOptions options,
                         state := GState.lobby,
                         players := g'.players.map resetPlayer })
    g hg (fun g' => rfl)
  unfold handleUpdatePoll
  rw [h1, if_neg (by simp), h2]
  dsimp only
  rw [hg]
  dsimp only
  rw [if_neg (by
    rintro (h | h)
    · exact hq h
    · omega)]
  try dsimp only
  rw [if_neg (by omega)]
  try dsimp only
  rw [hl]
  refine ⟨hl, ?_, ?_⟩
  · intro g' hg'
    rw [hl] at hg'
    cases hg'
    refine ⟨rfl, ?_⟩
    intro p hp
    rcases List.mem_map.mp hp with ⟨p₀, _, rfl⟩
    exact ⟨rfl, rfl⟩
  · intro p hp hpopen
    show _ ∈ _ ++ _ ++ broadcastToPlayers _ _ _
    rw [List.mem_append]
    right
    unfold broadcastToPlayers
    rw [List.mem_flatten]
    refine ⟨[(p.conn, OutMsg.pollReset
      "The host is preparing a new poll. Please wait for the next question.")], ?_, by simp⟩
    refine List.mem_map.mpr ⟨resetPlayer p, ?_, ?_⟩
    · exact List.mem_map.mpr ⟨p, hp, rfl⟩
    · show send _ p.conn _ = _
      unfold send
      rw [show connIsOpen (updateGame s k _) p.conn = connIsOpen s p.conn from rfl, hpopen]
      simp

theorem C10_update_any_state_witness :
    lookupGame (handleUpdatePoll (run C10wTrace).1 0 "R" ["C", "D"]).1 100001 =
      some { code := 100001, hostConn := 0, question := jsTrim "R",
             options := trimOptions ["C", "D"], state := GState.lobby,
             players := ([] : List Player).map resetPlayer } :=
  (C10_update_any_state (run C10wTrace).1 0
    { id := 0, sockOpen := true, role := some Role.host,
      currentGameCode := some 100001, playerId := none }
    (by decide) (by decide) 100001 (by decide)
    { code := 100001, hostConn := 0, question := "Q", options := ["A", "B"],
      players := [], state := GState.active }
    (by decide) "R" ["C", "D"] (by decide) (by decide) (by decide)).1

/-- C7 (counterexample): the handlers test only `!question`, so a
question that is non-empty but whitespace-only passes validation; the
game is created and the stored question is the empty string after
trimming — refuting both "rejected whenever the supplied question is
empty after trimming" and "the stored question is non-empty". -/
theorem C7_counterexample :
    ((run C7trace).1.games.map (fun g => g.question)) = [""] ∧
    (run C7trace).2 =
      [(0, OutMsg.identified Role.host),
       (0, OutMsg.gameCreated 100001 "" ["A", "B"])] := by
  constructor
  · decide
  · decide

/-- C7 (amended): `host:create_game` and `host:update_poll` are rejected
with an error and mutate nothing when the supplied question is the empty
string (the code's falsiness test); when accepted the stored question is
the trimmed prompt text — which is empty, not non-empty, when the
supplied question was whitespace-only (see the counterexample). -/
theorem C7_question_validation :
    (∀ s c cn question options, lookupConn s c = some cn →
      cn.role = some Role.host → connIsOpen s c = true →
      ((question = "" →
        handleCreateGame s c question options =
          (s, [(c, OutMsg.error
            "A question and at least two options are required to start a poll.")])) ∧
       (question ≠ "" → 2 ≤ options.length → 2 ≤ (trimOptions options).length →
        (handleCreateGame s c question options).1.games =
          s.games ++ [{ code := generateGameCode s, hostConn := c,
                        question := jsTrim question, options := trimOptions options,
                        players := [], state := GState.lobby }]))) ∧
    (∀ s c cn k g question options, lookupConn s c = some cn →
      cn.role = some Role.host → cn.currentGameCode = some k →
      lookupGame s k = some g → connIsOpen s c = true →
      ((question = "" →
        handleUpdatePoll s c question options =
          (s, [(c, OutMsg.error "A question and at least two options are required.")])) ∧
       (question ≠ "" → 2 ≤ options.length → 2 ≤ (trimOptions options).length →
        lookupGame (handleUpdatePoll s c question options).1 k =
          some { g with question := jsTrim question, options := trimOptions options,
                        state := GState.lobby,
                        players := g.players.map resetPlayer }))) := by
  constructor
  · intro s c cn question options hcn hrole hopen
    have h1 : roleOf s c = some Role.host := by simp [roleOf, hcn, hrole]
    constructor
    · intro hq
      unfold handleCreateGame
      rw [h1, if_neg (by simp), if_pos (Or.inl hq)]
      simp [send, hopen]
    · intro hq hlen hlen2
      unfold handleCreateGame
      rw [h1, if_neg (by simp)]
      rw [if_neg (by
        rintro (h | h)
        · exact hq h
        · omega)]
      try dsimp only
      rw [if_neg (by omega)]
      rfl
  · intro s c cn k g question options hcn hrole hk hg hopen
    have h1 : roleOf s c = some Role.host := by simp [roleOf, hcn, hrole]
    have h2 : (lookupConn s c).bind (fun cn => cn.currentGameCode) = some k := by
      simp [hcn, hk]
    constructor
    · intro hq
      unfold handleUpdatePoll
      rw [h1, if_neg (by simp), h2]
      dsimp only
      rw [hg]
      dsimp only
      rw [if_pos (Or.inl hq)]
      simp [send, hopen]
    · intro hq hlen hlen2
      have hl := lookupGame_updateGame_self s k
        (fun g' => { g' with question := jsTrim question,
                             options := trimOptions options,
                             state := GState.lobby,
                             players := g'.players.map resetPlayer })
        g hg (fun g' => rfl)
      unfold handleUpdatePoll
      rw [h1, if_neg (by simp), h2]
      dsimp only
      rw [hg]
      dsimp only
      rw [if_neg (by
        rintro (h | h)
        · exact hq h
        · omega)]
      try dsimp only
      rw [if_neg (by omega)]
      try dsimp only
      rw [hl]
      exact hl

theorem C7_question_validation_witness :
    handleCreateGame (exec init [Event.connect, Event.msg 0 (InMsg.identify "host")])
        0 "" ["A", "B"] =
      (exec init [Event.connect, Event.msg 0 (InMsg.identify "host")],
       [(0, OutMsg.error
         "A question and at least two options are required to start a poll.")]) :=
  (C7_question_validation.1
    (exec init [Event.connect, Event.msg 0 (InMsg.identify "host")]) 0
    { id := 0, sockOpen := true, role := some Role.host,
      currentGameCode := none, playerId := none }
    "" ["A", "B"] (by decide) (by decide) (by decide)).1 rfl

/-- C9 (counterexample): a second `player:join` from the same connection
creates a second Player entry instead of reusing or replacing the first:
after joining the same game twice, connection 1 owns two distinct roster
entries — refuting "each player connection has at most one Player entry
across all live sessions' rosters". -/
theorem C9_counterexample :
    ((run C9trace).1.games.map (fun g =>
      g.players.map (fun p => (p.id, p.conn)))) = [[(2, 1), (3, 1)]] := by
  decide

/-- C9 (amended): a join with an unknown code yields an error and
creates no Player entry; and in every reachable state the player
identifiers across all rosters are pairwise distinct, so each Player
entry belongs to exactly one session and one roster slot.  The
"at most one entry per connection" clause is false (see the
counterexample): each accepted join appends a fresh entry and a
connection's earlier entry is left in place. -/
theorem C9_join :
    (∀ s c cn k name, lookupConn s c = some cn → cn.role = some Role.player →
      connIsOpen s c = true → name ≠ "" → lookupGame s k = none →
      handleJoin s c (some k) name =
        (s, [(c, OutMsg.error "No game found with that code.")])) ∧
    (∀ s, Reachable s → (allIds s).Nodup) := by
  constructor
  · intro s c cn k name hcn hrole hopen hname hk
    have h1 : roleOf s c = some Role.player := by simp [roleOf, hcn, hrole]
    unfold handleJoin
    rw [h1, if_neg (by simp)]
    dsimp only
    rw [if_neg hname, hk]
    simp [send, hopen]
  · intro s hs
    exact (stateInv_reachable s hs).2.2.2

theorem C9_join_witness :
    handleJoin (exec init [Event.connect, Event.msg 0 (InMsg.identify "player")])
        0 (some 123456) "Ann" =
      (exec init [Event.connect, Event.msg 0 (InMsg.identify "player")],
       [(0, OutMsg.error "No game found with that code.")]) ∧
    (allIds (run C9trace).1).Nodup :=
  ⟨C9_join.1 (exec init [Event.connect, Event.msg 0 (InMsg.identify "player")]) 0
    { id := 0, sockOpen := true, role := some Role.player,
      currentGameCode := none, playerId := none }
    123456 "Ann" (by decide) (by decide) (by decide) (by decide) (by decide),
   C9_join.2 (run C9trace).1 (reachable_run C9trace)⟩

theorem count_broadcast (s0 : ServerState) (ps : List Player) (m : OutMsg)
    (d : ConnId) (hd : connIsOpen s0 d = true) :
    ((ps.map (fun p => send s0 p.conn m)).flatten).count (d, m) =
      (ps.filter (fun p => p.conn = d)).length := by
  induction ps with
  | nil => simp
  | cons p ps ih =>
    simp only [List.map_cons, List.flatten_cons, List.count_append]
    by_cases hc : p.conn = d
    · have hsend : send s0 p.conn m = [(p.conn, m)] := by
        unfold send
        rw [hc, hd]
        rfl
      rw [hsend, hc, ih]
      simp [List.filter_cons, hc]
      omega
    · have hz : (send s0 p.conn m).count (d, m) = 0 := by
        unfold send
        split
        · simp [List.count_cons, Prod.ext_iff, hc]
        · simp
      rw [hz]
      simp [ih, hc]

/-- C4 (counterexample): a host that creates a second game and then
disconnects only destroys the game recorded in its `currentGameCode`;
the earlier session it created (code 100001, with a still-connected
player) survives in the store and its player receives no `game:ended`
— refuting "for every session, when its host's connection closes, the
session is removed and each still-connected roster player is notified".
(The `end_poll` event in the trace merely shows the host is still driving
the connection that owns both games.) -/
theorem C4_counterexample :
    ((run C4trace).1.games.map Game.code) = [100001] ∧
    ((run C4trace).2.filter (fun x =>
      match x.2 with
      | OutMsg.gameEnded _ => true
      | _ => false)) = [] := by
  constructor
  · decide
  · decide

/-- C4 (amended): when a host connection closes, the session stored
under its `currentGameCode` — its most recently created game — is
removed from the store, and its roster receives the `game:ended`
broadcast: every connection that is still open after the host socket
closes receives exactly one `game:ended` per roster entry it owns
(exactly one for an ordinary player).  Earlier sessions created by the
same host connection are not destroyed (see the counterexample). -/
theorem C4_host_close (s : ServerState) (c : ConnId) (cn : Conn)
    (hcn : lookupConn s c = some cn) (hrole : cn.role = some Role.host)
    (k : Code) (hk : cn.currentGameCode = some k)
    (g : Game) (hg : lookupGame s k = some g) :
    lookupGame (handleClose s c).1 k = none ∧
    (handleClose s c).2 = broadcastToPlayers
      (updateConn s c (fun cn => { cn with sockOpen := false })) g
      (OutMsg.gameEnded "The host has disconnected. The poll has ended.") ∧
    (∀ d, connIsOpen (updateConn s c (fun cn => { cn with sockOpen := false })) d
        = true →
      ((handleClose s c).2.count
        (d, OutMsg.gameEnded "The host has disconnected. The poll has ended.")) =
        (g.players.filter (fun p => p.conn = d)).length) := by
  have hcid : cn.id = c := lookupConn_id s c cn hcn
  have hcn' : lookupConn (updateConn s c (fun cn => { cn with sockOpen := false })) c
      = some { cn with sockOpen := false } := by
    rw [lookupConn_updateConn s c c
      (fun cn => { cn with sockOpen := false }) (fun cn => rfl), hcn]
    simp [hcid]
  have hdestroy : handleClose s c =
      destroyGame (updateConn s c (fun cn => { cn with sockOpen := false })) k := by
    unfold handleClose
    dsimp only
    rw [hcn']
    dsimp only
    rw [hrole, hk]
  have hg0 : lookupGame (updateConn s c (fun cn => { cn with sockOpen := false })) k
      = some g := hg
  have hres : handleClose s c =
      ({ updateConn s c (fun cn => { cn with sockOpen := false }) with
          games := (updateConn s c (fun cn => { cn with sockOpen := false })).games.filter
            (fun g' => g'.code ≠ k) },
        broadcastToPlayers (updateConn s c (fun cn => { cn with sockOpen := false })) g
          (OutMsg.gameEnded "The host has disconnected. The poll has ended.")) := by
    rw [hdestroy]
    unfold destroyGame
    rw [hg0]
  refine ⟨?_, ?_, ?_⟩
  · rw [hres]
    show List.find? _ (List.filter _ _) = none
    apply List.find?_eq_none.mpr
    intro x hx
    have := (List.mem_filter.mp hx).2
    simp at this ⊢
    exact this
  · rw [hres]
  · intro d hd
    rw [hres]
    exact count_broadcast _ g.players _ d hd

theorem C4_host_close_witness :
    lookupGame (handleClose (run C4wTrace).1 0).1 100001 = none :=
  (C4_host_close (run C4wTrace).1 0
    { id := 0, sockOpen := true, role := some Role.host,
      currentGameCode := some 100001, playerId := none }
    (by decide) (by decide) 100001 (by decide)
    { code := 100001, hostConn := 0, question := "Q", options := ["A", "B"],
      players := [{ id := 2, name := "Ann", conn := 1, hasVoted := false,
                    choiceIndex := none }],
      state := GState.lobby }
    (by decide)).1

/-- C3 (counterexample): the vote guard is
`typeof choiceIndex !== 'number' || choiceIndex < 0 || choiceIndex >= len`
and never checks integrality, so the JavaScript number 1.5 is accepted
in a 3-option poll: the player is acknowledged with `player:voted` and
the stored `choiceIndex` is 3/2, which is not an integer — refuting
"accepted only when choiceIndex is an integer within [0, len(options))". -/
theorem C3_counterexample :
    ((run C3trace).1.games.map (fun g =>
      g.players.map (fun p => p.choiceIndex))) = [[some threeHalves]] ∧
    ((run C3trace).2.filter (fun x =>
      match x.2 with
      | OutMsg.playerVoted _ => true
      | _ => false)) = [(1, OutMsg.playerVoted threeHalves)] ∧
    threeHalves.den ≠ 1 := by
  refine ⟨?_, ?_, ?_⟩
  · decide
  · decide
  · decide

/-- C3 (amended): a vote is accepted exactly when the session is active,
the sender is an unvoted roster member, and the payload is a number `q`
with `0 ≤ q < len(options)` — integrality is not required (see the
counterexample); every rejection leaves the state unchanged and sends an
error: a non-number or out-of-range payload, a poll that is not active,
a sender who is not on the roster, and a sender who has already voted
each draw their own error with no mutation; consequently every stored
`choiceIndex`, when present, satisfies `0 ≤ choiceIndex < len(options)`
as numbers (not necessarily as integers) in every reachable state. -/
theorem C3_vote_guard :
    (∀ s, Reachable s → ∀ g ∈ s.games, ∀ p ∈ g.players, ∀ q : ℚ,
      p.choiceIndex = some q → 0 ≤ q ∧ q < (g.options.length : ℚ)) ∧
    (∀ s c cn k g pid p q, lookupConn s c = some cn →
      cn.role = some Role.player → cn.currentGameCode = some k →
      lookupGame s k = some g → g.state = GState.active →
      cn.playerId = some pid →
      g.players.find? (fun p' => p'.id = pid) = some p →
      p.hasVoted = false → connIsOpen s c = true →
      ((¬(q < 0 ∨ (g.options.length : ℚ) ≤ q) →
        (handleVote s c (some q)).1 =
          updateGame s k (fun g' => { g' with players := g'.players.map (fun p' =>
            if p'.id = p.id then { p' with hasVoted := true, choiceIndex := some q }
            else p') }) ∧
        (handleVote s c (some q)).2.head? = some (c, OutMsg.playerVoted q)) ∧
       ((q < 0 ∨ (g.options.length : ℚ) ≤ q) →
        handleVote s c (some q) =
          (s, [(c, OutMsg.error "Please select a valid option.")])))) ∧
    (∀ s c cn k g pid p, lookupConn s c = some cn →
      cn.role = some Role.player → cn.currentGameCode = some k →
      lookupGame s k = some g → g.state = GState.active →
      cn.playerId = some pid →
      g.players.find? (fun p' => p'.id = pid) = some p →
      p.hasVoted = false → connIsOpen s c = true →
      handleVote s c none =
        (s, [(c, OutMsg.error "Please select a valid option.")])) ∧
    (∀ s c cn k g ci, lookupConn s c = some cn →
      cn.role = some Role.player → cn.currentGameCode = some k →
      lookupGame s k = some g → g.state ≠ GState.active →
      connIsOpen s c = true →
      handleVote s c ci =
        (s, [(c, OutMsg.error "Voting is not open at the moment.")])) ∧
    (∀ s c cn k g ci, lookupConn s c = some cn →
      cn.role = some Role.player → cn.currentGameCode = some k →
      lookupGame s k = some g → g.state = GState.active →
      ((lookupConn s c).bind (fun cn => cn.playerId)).bind
        (fun pid => g.players.find? (fun p' => p'.id = pid)) = none →
      connIsOpen s c = true →
      handleVote s c ci =
        (s, [(c, OutMsg.error "You are not part of this game.")])) ∧
    (∀ s c cn k g pid p ci, lookupConn s c = some cn →
      cn.role = some Role.player → cn.currentGameCode = some k →
      lookupGame s k = some g → g.state = GState.active →
      cn.playerId = some pid →
      g.players.find? (fun p' => p'.id = pid) = some p →
      p.hasVoted = true → connIsOpen s c = true →
      handleVote s c ci =
        (s, [(c, OutMsg.error "You have already voted in this poll.")])) := by
  refine ⟨?_, ?_, ?_, ?_, ?_, ?_⟩
  · intro s hs g hg p hp q hq
    exact (stateInv_reachable s hs).1 g hg |>.2.2.2 p hp q hq
  · intro s c cn k g pid p q hcn hrole hk hg hstate hpid hp hv hopen
    have h1 : roleOf s c = some Role.player := by simp [roleOf, hcn, hrole]
    have h2 : (lookupConn s c).bind (fun cn => cn.currentGameCode) = some k := by
      simp [hcn, hk]
    have h3 : ((lookupConn s c).bind (fun cn => cn.playerId)).bind
        (fun pid => g.players.find? (fun p' => p'.id = pid)) = some p := by
      simp [hcn, hpid, hp]
    constructor
    · intro hrange
      have hl := lookupGame_updateGame_self s k
        (fun g' => { g' with players := g'.players.map (fun p' =>
          if p'.id = p.id then { p' with hasVoted := true, choiceIndex := some q }
          else p') }) g hg (fun g' => rfl)
      unfold handleVote
      rw [h1, if_neg (by simp), h2]
      dsimp only
      rw [hg]
      dsimp only
      rw [if_neg (by simp [hstate]), h3]
      dsimp only
      rw [if_neg (by simp [hv]), if_neg hrange]
      try dsimp only
      rw [hl]
      refine ⟨rfl, ?_⟩
      show (send _ c (OutMsg.playerVoted q) ++ _ ++ _).head? = _
      have hsend : send (updateGame s k (fun g' =>
          { g' with players := g'.players.map (fun p' =>
            if p'.id = p.id then { p' with hasVoted := true, choiceIndex := some q }
            else p') })) c (OutMsg.playerVoted q) = [(c, OutMsg.playerVoted q)] := by
        unfold send
        rw [show connIsOpen (updateGame s k _) c = connIsOpen s c from rfl, hopen]
        rfl
      rw [hsend]
      rfl
    · intro hrange
      unfold handleVote
      rw [h1, if_neg (by simp), h2]
      dsimp only
      rw [hg]
      dsimp only
      rw [if_neg (by simp [hstate]), h3]
      dsimp only
      rw [if_neg (by simp [hv]), if_pos hrange]
      simp [send, hopen]
  · intro s c cn k g pid p hcn hrole hk hg hstate hpid hp hv hopen
    have h1 : roleOf s c = some Role.player := by simp [roleOf, hcn, hrole]
    have h2 : (lookupConn s c).bind (fun cn => cn.currentGameCode) = some k := by
      simp [hcn, hk]
    have h3 : ((lookupConn s c).bind (fun cn => cn.playerId)).bind
        (fun pid => g.players.find? (fun p' => p'.id = pid)) = some p := by
      simp [hcn, hpid, hp]
    unfold handleVote
    rw [h1, if_neg (by simp), h2]
    dsimp only
    rw [hg]
    dsimp only
    rw [if_neg (by simp [hstate]), h3]
    dsimp only
    rw [if_neg (by simp [hv])]
    simp [send, hopen]
  · intro s c cn k g ci hcn hrole hk hg hstate hopen
    have h1 : roleOf s c = some Role.player := by simp [roleOf, hcn, hrole]
    have h2 : (lookupConn s c).bind (fun cn => cn.currentGameCode) = some k := by
      simp [hcn, hk]
    unfold handleVote
    rw [h1, if_neg (by simp), h2]
    dsimp only
    rw [hg]
    dsimp only
    rw [if_pos hstate]
    simp [send, hopen]
  · intro s c cn k g ci hcn hrole hk hg hstate hnone hopen
    have h1 : roleOf s c = some Role.player := by simp [roleOf, hcn, hrole]
    have h2 : (lookupConn s c).bind (fun cn => cn.currentGameCode) = some k := by
      simp [hcn, hk]
    unfold handleVote
    rw [h1, if_neg (by simp), h2]
    dsimp only
    rw [hg]
    dsimp only
    rw [if_neg (by simp [hstate]), hnone]
    simp [send, hopen]
  · intro s c cn k g pid p ci hcn hrole hk hg hstate hpid hp hv hopen
    have h1 : roleOf s c = some Role.player := by simp [roleOf, hcn, hrole]
    have h2 : (lookupConn s c).bind (fun cn => cn.currentGameCode) = some k := by
      simp [hcn, hk]
    have h3 : ((lookupConn s c).bind (fun cn => cn.playerId)).bind
        (fun pid => g.players.find? (fun p' => p'.id = pid)) = some p := by
      simp [hcn, hpid, hp]
    unfold handleVote
    rw [h1, if_neg (by simp), h2]
    dsimp only
    rw [hg]
    dsimp only
    rw [if_neg (by simp [hstate]), h3]
    dsimp only
    rw [if_pos hv]
    simp [send, hopen]

theorem C3_vote_guard_witness :
    handleVote (run C3wTrace).1 1 (some 5) =
      ((run C3wTrace).1, [(1, OutMsg.error "Please select a valid option.")]) :=
  ((C3_vote_guard.2.1 (run C3wTrace).1 1
    { id := 1, sockOpen := true, role := some Role.player,
      currentGameCode := some 100001, playerId := some 2 }
    100001
    { code := 100001, hostConn := 0, question := "Q", options := ["A", "B"],
      players := [{ id := 2, name := "Ann", conn := 1, hasVoted := false,
                    choiceIndex := none }],
      state := GState.active }
    2
    { id := 2, name := "Ann", conn := 1, hasVoted := false, choiceIndex := none }
    5 (by decide) (by decide) (by decide) (by decide) (by decide) (by decide)
    (by decide) (by decide) (by decide)).2 (by decide))

theorem bump_length (counts : List Nat) (q : ℚ) :
    (bump counts q).length = counts.length := by
  unfold bump
  split <;> simp

theorem getD_set_self : ∀ (l : List Nat) (i v : Nat), i < l.length →
    (l.set i v).getD i 0 = v
  | [], i, v, h => by simp at h
  | _ :: _, 0, _, _ => rfl
  | a :: l, i + 1, v, h => getD_set_self l i v (by simpa using h)

theorem getD_set_ne : ∀ (l : List Nat) (i j v : Nat), i ≠ j →
    (l.set i v).getD j 0 = l.getD j 0
  | [], _, _, _, _ => by simp
  | _ :: _, 0, 0, _, h => absurd rfl h
  | _ :: _, 0, _ + 1, _, _ => rfl
  | _ :: _, _ + 1, 0, _, _ => rfl
  | a :: l, i + 1, j + 1, v, h =>
    getD_set_ne l i j v (fun hh => h (by rw [hh]))

theorem bump_getD (counts : List Nat) (q : ℚ) (i : Nat) (hi : i < counts.length) :
    (bump counts q).getD i 0 =
      counts.getD i 0 + (if q = (i : ℚ) then 1 else 0) := by
  by_cases hq : q = (i : ℚ)
  · rw [if_pos hq]
    subst hq
    have hnum : ((i : ℚ)).num.toNat = i := by
      rw [Rat.num_natCast]
      exact Int.toNat_natCast i
    unfold bump
    rw [if_pos ⟨Rat.den_natCast i, by rw [Rat.num_natCast]; exact Int.natCast_nonneg i,
      by rw [hnum]; exact hi⟩]
    rw [hnum]
    exact getD_set_self counts i _ hi
  · rw [if_neg hq, Nat.add_zero]
    unfold bump
    split
    · next hcond =>
      apply getD_set_ne
      intro hji
      apply hq
      obtain ⟨hden, hpos, _⟩ := hcond
      have h1 : (q.num : ℚ) = q := Rat.coe_int_num_of_den_eq_one hden
      have h2 : q.num = (i : ℤ) := by omega
      rw [← h1, h2]
      norm_cast
    · rfl

theorem voteStep_length (counts : List Nat) (p : Player) :
    (voteStep counts p).length = counts.length := by
  rcases hp : p.choiceIndex with _ | q <;> simp [voteStep, hp, bump_length]

theorem foldl_voteStep_length : ∀ (ps : List Player) (counts : List Nat),
    (ps.foldl voteStep counts).length = counts.length
  | [], _ => rfl
  | p :: ps, counts => by
    rw [List.foldl_cons, foldl_voteStep_length ps _, voteStep_length]

theorem foldl_voteStep_getD : ∀ (ps : List Player) (counts : List Nat) (i : Nat),
    i < counts.length →
    (ps.foldl voteStep counts).getD i 0 =
      counts.getD i 0 + (ps.filter (fun p => p.choiceIndex = some (i : ℚ))).length
  | [], counts, i, _ => by simp
  | p :: ps, counts, i, hi => by
    rw [List.foldl_cons,
      foldl_voteStep_getD ps (voteStep counts p) i (by rw [voteStep_length]; exact hi)]
    rcases hp : p.choiceIndex with _ | q
    · have hstep : voteStep counts p = counts := by simp [voteStep, hp]
      rw [hstep]
      simp [List.filter_cons, hp]
    · have hstep : voteStep counts p = bump counts q := by simp [voteStep, hp]
      rw [hstep, bump_getD counts q i hi]
      by_cases hq : q = (i : ℚ)
      · simp only [List.filter_cons, hp, hq, Option.some.injEq, decide_eq_true_eq]
        simp
        omega
      · simp only [List.filter_cons, hp]
        have hne : ¬ (some q = some (i : ℚ)) := by simpa using hq
        simp [hne, hq]

theorem sum_set_succ : ∀ (l : List Nat) (i : Nat), i < l.length →
    (l.set i (l.getD i 0 + 1)).sum = l.sum + 1
  | [], i, h => by simp at h
  | a :: l, 0, _ => by
    show ((a + 1) :: l).sum = (a :: l).sum + 1
    simp [List.sum_cons]
    omega
  | a :: l, i + 1, h => by
    show (a :: l.set i (l.getD i 0 + 1)).sum = (a :: l).sum + 1
    simp only [List.sum_cons]
    rw [sum_set_succ l i (by simpa using h)]
    omega

theorem bump_sum (counts : List Nat) (q : ℚ) :
    (bump counts q).sum = counts.sum +
      (if q.den = 1 ∧ 0 ≤ q.num ∧ q.num.toNat < counts.length then 1 else 0) := by
  unfold bump
  split
  · next hcond =>
    exact sum_set_succ counts _ hcond.2.2
  · next hcond =>
    simp

theorem foldl_voteStep_sum : ∀ (ps : List Player) (counts : List Nat),
    (ps.foldl voteStep counts).sum =
      counts.sum + (ps.filter (countedChoice counts.length)).length
  | [], _ => by simp
  | p :: ps, counts => by
    rw [List.foldl_cons, foldl_voteStep_sum ps (voteStep counts p)]
    rcases hp : p.choiceIndex with _ | q
    · have hstep : voteStep counts p = counts := by simp [voteStep, hp]
      rw [hstep]
      simp [List.filter_cons, countedChoice, hp]
    · have hstep : voteStep counts p = bump counts q := by simp [voteStep, hp]
      rw [hstep, bump_length, bump_sum]
      by_cases hc : q.den = 1 ∧ 0 ≤ q.num ∧ q.num.toNat < counts.length
      · have hcc : countedChoice counts.length p = true := by
          simp only [countedChoice, hp]
          exact decide_eq_true hc
        rw [if_pos hc]
        simp only [List.filter_cons, hcc, if_pos, List.length_cons]
        omega
      · have hcc : countedChoice counts.length p = false := by
          simp only [countedChoice, hp]
          exact decide_eq_false hc
        rw [if_neg hc]
        simp [List.filter_cons, hcc]

theorem getD_map_zero : ∀ (l : List String) (i : Nat),
    (l.map (fun _ => (0 : Nat))).getD i 0 = 0
  | [], _ => by simp
  | _ :: _, 0 => rfl
  | _ :: l, i + 1 => getD_map_zero l i

theorem countVotes_length (g : Game) :
    (countVotes g).length = g.options.length := by
  show (g.players.foldl voteStep (g.options.map fun _ => 0)).length = _
  rw [foldl_voteStep_length]
  simp

theorem countVotes_getD (g : Game) (i : Nat) (hi : i < g.options.length) :
    (countVotes g).getD i 0 =
      (g.players.filter (fun p => p.choiceIndex = some (i : ℚ))).length := by
  show (g.players.foldl voteStep (g.options.map fun _ => 0)).getD i 0 = _
  rw [foldl_voteStep_getD _ _ i (by simpa using hi), getD_map_zero]
  simp

theorem countVotes_sum (g : Game) :
    (countVotes g).sum = (g.players.filter (countedChoice g.options.length)).length := by
  show (g.players.foldl voteStep (g.options.map fun _ => 0)).sum = _
  rw [foldl_voteStep_sum]
  simp

/-- C1 (counterexample): the vote guard accepts the non-integer number
0.5, which sets `hasVoted` but lands in no bucket of the tally, so the
`host:poll_results` broadcast after `end_poll` reports `[0, 0]` while
one roster player has `hasVoted = true` — refuting "the sum of all
counts equals the number of players with hasVoted = true" on a
reachable roster state. -/
theorem C1_counterexample :
    ((run C1trace).1.games.map (fun g => (countVotes g).sum)) = [0] ∧
    ((run C1trace).1.games.map (fun g =>
      (g.players.filter (fun p => p.hasVoted)).length)) = [1] ∧
    ((run C1trace).2.filter (fun x =>
      match x.2 with
      | OutMsg.hostPollResults _ => true
      | _ => false)) = [(0, OutMsg.hostPollResults [0, 0])] := by
  refine ⟨?_, ?_, ?_⟩
  · decide
  · decide
  · decide

/-- C1 (amended): for every reachable session state, the tally has one
count per option index and the count at index `i` is exactly the number
of roster players whose recorded `choiceIndex` equals `i`; players who
have not voted contribute to no bucket.  The sum of all counts equals
the number of players with `hasVoted = true` provided every recorded
choice is an integer — which the guard does not enforce (see the
counterexample), so a fractional choice sets `hasVoted` without landing
in any bucket. -/
theorem C1_tally (s : ServerState) (hs : Reachable s) (g : Game)
    (hg : g ∈ s.games) :
    (countVotes g).length = g.options.length ∧
    (∀ i, i < g.options.length →
      (countVotes g).getD i 0 =
        (g.players.filter (fun p => p.choiceIndex = some (i : ℚ))).length) ∧
    ((∀ p ∈ g.players, ∀ q : ℚ, p.choiceIndex = some q → q.den = 1) →
      (countVotes g).sum = (g.players.filter (fun p => p.hasVoted)).length) := by
  obtain ⟨hginv, _, _, _⟩ := stateInv_reachable s hs
  obtain ⟨_, _, hhv, hrange⟩ := hginv g hg
  refine ⟨countVotes_length g, fun i hi => countVotes_getD g i hi, ?_⟩
  intro hint
  rw [countVotes_sum]
  congr 1
  apply List.filter_congr
  intro p hp
  rcases hq : p.choiceIndex with _ | q
  · have hv : p.hasVoted = false := by
      have h := hhv p hp
      simp [hq] at h
      exact h
    simp [countedChoice, hq, hv]
  · have hden := hint p hp q hq
    have hr := hrange p hp q hq
    have hnum : 0 ≤ q.num := Rat.num_nonneg.mpr hr.1
    have hlt : q.num.toNat < g.options.length := by
      have h1 : (q.num : ℚ) = q := Rat.coe_int_num_of_den_eq_one hden
      have h2 : (q.num : ℚ) < (g.options.length : ℚ) := by
        rw [h1]
        exact hr.2
      have h3 : q.num < (g.options.length : ℤ) := by exact_mod_cast h2
      omega
    have hv : p.hasVoted = true := (hhv p hp).mpr (by simp [hq])
    simp [countedChoice, hq, hv, hden, hnum, hlt]

theorem C1_tally_witness :
    (countVotes
      { code := 100001, hostConn := 0, question := "Q", options := ["A", "B"],
        players := [{ id := 2, name := "Ann", conn := 1, hasVoted := true,
                      choiceIndex := some 0 }],
        state := GState.ended }).sum =
      (({ code := 100001, hostConn := 0, question := "Q", options := ["A", "B"],
          players := [{ id := 2, name := "Ann", conn := 1, hasVoted := true,
                        choiceIndex := some 0 }],
          state := GState.ended } : Game).players.filter
        (fun p => p.hasVoted)).length :=
  (C1_tally (run C1wTrace).1 (reachable_run C1wTrace)
    { code := 100001, hostConn := 0, question := "Q", options := ["A", "B"],
      players := [{ id := 2, name := "Ann", conn := 1, hasVoted := true,
                    choiceIndex := some 0 }],
      state := GState.ended }
    (by decide)).2.2
    (by
      intro p hp q hq
      simp only [List.mem_singleton] at hp
      subst hp
      simp only [Option.some.injEq] at hq
      subst hq
      decide)
